import Mathlib

/-!
# The DEPG0290B01 e-paper driver (`epd2in9-badge.cpp`)

A shallow embedding of the driver class `Epd`.  Every method becomes a function on an
explicit `World`: the driver object's fields, the ordered record of what the driver did to
the hardware (pin writes, pin reads, delays, byte transfers), the text sent to the serial
console, the indices at which caller memory was read, and the two inputs the hardware gives
back (the result of the transport initialisation and the samples of the busy line).

C `int` is a 32-bit two's-complement integer: values are `Int`, and every `+`, `-`, `*`
and `&` of the frame-memory methods is reduced with `wrap32`; `/` is `Int.tdiv`, which
rounds towards zero as C does.
-/

namespace Epd2in9

/-! ## Machine integers -/

/-- An `unsigned char`. -/
abbrev Byte := Fin 256

/-- The value of a 32-bit two's-complement `int` holding the exact result `z`. -/
def wrap32 (z : Int) : Int := (z + 2147483648) % 4294967296 - 2147483648

/-- The 32 bits of an `int`, read as an unsigned number. -/
def toU32 (z : Int) : Nat := (z % 4294967296).toNat

/-- C `a + b` on `int`. -/
def iadd (a b : Int) : Int := wrap32 (a + b)

/-- C `a - b` on `int`. -/
def isub (a b : Int) : Int := wrap32 (a - b)

/-- C `a * b` on `int`. -/
def imul (a b : Int) : Int := wrap32 (a * b)

/-- C `a & b` on `int`: the bitwise AND of the two 32-bit patterns. -/
def land32 (a b : Int) : Int := wrap32 ((toU32 a &&& toU32 b : Nat) : Int)

/-- C `a >> k` on `int`, an arithmetic shift: the sign bit is kept. -/
def ishr (a : Int) (k : Nat) : Int := a >>> k

/-- The conversion of an `int` argument to an `unsigned char` parameter. -/
def toUChar (z : Int) : Byte := ⟨(z % 256).toNat, by omega⟩

/-! ## The hardware seen from the driver -/

/-- A digital line level (`LOW`, `HIGH`). -/
inductive Level where
  | LOW
  | HIGH
  deriving DecidableEq, Repr

/-- One action of the driver on the hardware, named after the primitive that performs it. -/
inductive Event where
  | IfInit
  | DigitalWrite (pin : Nat) (value : Level)
  | DigitalRead (pin : Nat)
  | DelayMs (delaytime : Nat)
  | SpiTransfer (data : Byte)
  deriving DecidableEq, Repr

/-- One call on the serial console. -/
inductive Out where
  | print (text : String)
  | println (text : String)
  deriving DecidableEq, Repr

/-- One read of caller memory: `this->lut[i]` or `image_buffer[i]`. -/
inductive Read where
  | lut (i : Int)
  | image (i : Int)
  deriving DecidableEq, Repr

/-- The constants the source takes from its headers without defining them: the four pin
numbers and the command opcodes that are used by name. -/
structure Header where
  RST_PIN : Nat
  DC_PIN : Nat
  CS_PIN : Nat
  BUSY_PIN : Nat
  SW_RESET : Byte
  DEEP_SLEEP_MODE : Byte
  WRITE_RAM : Byte
  WRITE_LUT_REGISTER : Byte
  SET_RAM_X_ADDRESS_START_END_POSITION : Byte
  SET_RAM_Y_ADDRESS_START_END_POSITION : Byte
  SET_RAM_X_ADDRESS_COUNTER : Byte
  SET_RAM_Y_ADDRESS_COUNTER : Byte

/-- Modelled from the spec: the header constant `EPD_WIDTH` is not in the source; the
panel geometry is "here 128×296". -/
def EPD_WIDTH : Int := 128

/-- Modelled from the spec: the header constant `EPD_HEIGHT` is not in the source; the
panel geometry is "here 128×296". -/
def EPD_HEIGHT : Int := 296

/-- The fields of the driver object.  `lut` is a pointer: `none` while it has not been
assigned, otherwise the memory it points to, indexed from the pointer. -/
structure Epd where
  reset_pin : Nat
  dc_pin : Nat
  cs_pin : Nat
  busy_pin : Nat
  width : Int
  height : Int
  lut : Option (Int → Byte)

/-- The driver object together with its surroundings.

* `trace`: the hardware actions so far, oldest first;
* `console`: the serial console calls so far;
* `reads`: the reads of caller memory so far;
* `ifInitResult`: what the transport initialisation returns;
* `busy`: the busy line, `busy k` being the level the `k`-th read of it returns;
* `polls`: how many reads of the busy line have been made. -/
structure World where
  epd : Epd
  trace : List Event
  console : List Out
  reads : List Read
  ifInitResult : Int
  busy : Nat → Level
  polls : Nat

/-- The constructor `Epd::Epd()`: six fields are assigned, `lut` is left unassigned. -/
def Epd.new (hd : Header) : Epd :=
  { reset_pin := hd.RST_PIN
    dc_pin := hd.DC_PIN
    cs_pin := hd.CS_PIN
    busy_pin := hd.BUSY_PIN
    width := EPD_WIDTH
    height := EPD_HEIGHT
    lut := none }

/-- A freshly constructed driver in surroundings where nothing has happened yet. -/
def World.boot (hd : Header) (ifInitResult : Int) (busy : Nat → Level) : World :=
  { epd := Epd.new hd
    trace := []
    console := []
    reads := []
    ifInitResult := ifInitResult
    busy := busy
    polls := 0 }

/-! ## The primitives the driver consumes -/

/-- The primitive `DigitalWrite(pin, value)`. -/
def DigitalWrite (pin : Nat) (value : Level) (s : World) : World :=
  { s with trace := s.trace ++ [Event.DigitalWrite pin value] }

/-- The primitive `DigitalRead(pin)`: the next sample of the busy line. -/
def DigitalRead (pin : Nat) (s : World) : Level × World :=
  (s.busy s.polls, { s with trace := s.trace ++ [Event.DigitalRead pin], polls := s.polls + 1 })

/-- The primitive `DelayMs(delaytime)`. -/
def DelayMs (delaytime : Nat) (s : World) : World :=
  { s with trace := s.trace ++ [Event.DelayMs delaytime] }

/-- The primitive `SpiTransfer(data)`. -/
def SpiTransfer (data : Byte) (s : World) : World :=
  { s with trace := s.trace ++ [Event.SpiTransfer data] }

/-- Modelled from the spec: the transport initialisation `IfInit()` is not in the source;
it is "`TransportInit() -> success/failure`", here an action that returns the result the
surroundings hold for it. -/
def IfInit (s : World) : Int × World :=
  (s.ifInitResult, { s with trace := s.trace ++ [Event.IfInit] })

/-- The console call `Serial.print(text)`. -/
def Serial_print (text : String) (s : World) : World :=
  { s with console := s.console ++ [Out.print text] }

/-- The console call `Serial.println(text)`. -/
def Serial_println (text : String) (s : World) : World :=
  { s with console := s.console ++ [Out.println text] }

/-- A read of `image_buffer[i]`, recorded in `reads`. -/
def readImage (image_buffer : Int → Byte) (i : Int) (s : World) : Byte × World :=
  (image_buffer i, { s with reads := s.reads ++ [Read.image i] })

/-- A read of `this->lut[i]`, recorded in `reads`.  Reading through the unassigned pointer
has no defined result in C; the model returns 0 there, and `SetLut`, the only reader,
assigns the field first. -/
def readLut (i : Int) (s : World) : Byte × World :=
  (match s.epd.lut with
   | some t => t i
   | none => 0,
   { s with reads := s.reads ++ [Read.lut i] })

/-- The loop `for (int i = lo; i < hi; i++) body(i)`, started as `forLoop hi body fuel lo`.
The guard `i < hi` is tested before every pass; `fuel` bounds the number of passes and is
given as the distance from `lo` to `hi`, which the guard never lets the loop exceed
(`forLoop_fuel`).  `i < hi` holds when `i + 1` is computed, so the increment cannot
overflow. -/
def forLoop (hi : Int) (body : Int → World → World) : Nat → Int → World → World
  | 0, _, s => s
  | fuel + 1, i, s => if i < hi then forLoop hi body fuel (i + 1) (body i s) else s

/-! ## The waveform tables -/

/-- The table `lut_full_update`, as the memory the array name points to. -/
def lut_full_update_bytes : List Byte :=
  [0x90, 0x50, 0xa0, 0x50, 0x50, 0x00, 0x00,
   0x00, 0x00, 0x10, 0xa0, 0xa0, 0x80, 0x00,
   0x90, 0x50, 0xa0, 0x50, 0x50, 0x00, 0x00,
   0x00, 0x00, 0x10, 0xa0, 0xa0, 0x80, 0x00,
   0x00, 0x00, 0x00, 0x00, 0x00, 0x00, 0x00,
   0x17, 0x04, 0x00, 0x00, 0x00,
   0x0b, 0x04, 0x00, 0x00, 0x00,
   0x06, 0x05, 0x00, 0x00, 0x00,
   0x04, 0x05, 0x00, 0x00, 0x00,
   0x01, 0x0e, 0x00, 0x00, 0x00,
   0x01, 0x00, 0x00, 0x00, 0x00,
   0x00, 0x00, 0x00, 0x00, 0x00]

/-- The table `lut_partial_update`, as the memory the array name points to. -/
def lut_partial_update_bytes : List Byte :=
  [0x00, 0x00, 0x00, 0x00, 0x00, 0x00, 0x00,
   0x20, 0xa0, 0x80, 0x00, 0x00, 0x00, 0x00,
   0x50, 0x10, 0x00, 0x00, 0x00, 0x00, 0x00,
   0x00, 0x00, 0x00, 0x00, 0x00, 0x00, 0x00,
   0x00, 0x00, 0x00, 0x00, 0x00, 0x00, 0x00,
   0x03, 0x05, 0x00, 0x00, 0x00,
   0x01, 0x08, 0x00, 0x00, 0x00,
   0x02, 0x00, 0x00, 0x00, 0x00,
   0x00, 0x00, 0x00, 0x00, 0x00,
   0x00, 0x00, 0x00, 0x00, 0x00,
   0x00, 0x00, 0x00, 0x00, 0x00,
   0x00, 0x00, 0x00, 0x00, 0x00]

/-- The memory an array name points to, indexed from its first element; what lies outside
the array is not defined by C and reads as 0 here. -/
def arrayPtr (bytes : List Byte) (i : Int) : Byte :=
  if 0 ≤ i then bytes.getD i.toNat 0 else 0

/-- The pointer `lut_full_update`. -/
def lut_full_update : Int → Byte := arrayPtr lut_full_update_bytes

/-- The pointer `lut_partial_update`. -/
def lut_partial_update : Int → Byte := arrayPtr lut_partial_update_bytes

/-! ## The driver's methods -/

/-- The method `Epd::SendCommand`. -/
def SendCommand (command : Byte) (s : World) : World :=
  let s := DigitalWrite s.epd.dc_pin Level.LOW s
  SpiTransfer command s

/-- The method `Epd::SendData`. -/
def SendData (data : Byte) (s : World) : World :=
  let s := DigitalWrite s.epd.dc_pin Level.HIGH s
  SpiTransfer data s

/-- The method `Epd::WaitUntilIdle`: `while (DigitalRead(busy_pin) == HIGH) { ... }`.
The loop has no bound of its own; `fuel` bounds the number of reads, and `none` is the run
that has not left the loop within it. -/
def WaitUntilIdle : Nat → World → Option World
  | 0, _ => none
  | fuel + 1, s =>
    let (level, s) := DigitalRead s.epd.busy_pin s
    if level = Level.HIGH then
      let s := DelayMs 100 s
      let s := Serial_print "." s
      WaitUntilIdle fuel s
    else
      some s

/-- The method `Epd::Reset`. -/
def Reset (s : World) : World :=
  let s := Serial_print "Hardware reset" s
  let s := DigitalWrite s.epd.reset_pin Level.LOW s
  let s := DelayMs 200 s
  let s := DigitalWrite s.epd.reset_pin Level.HIGH s
  let s := DelayMs 200 s
  Serial_println " done." s

/-- The method `Epd::Init`, returning the `int` result and the world it leaves. -/
def Init (hd : Header) (s : World) : Int × World :=
  let (r, s) := IfInit s
  if r ≠ 0 then (-1, s) else
  let s := Reset s
  let s := SendCommand hd.SW_RESET s
  let s := SendCommand 0x74 s
  let s := SendData 0x54 s
  let s := SendCommand 0x7E s
  let s := SendData 0x3B s
  let s := SendCommand 0x11 s
  let s := SendData 0x03 s
  let s := SendCommand 0x3C s
  let s := SendData 0x01 s
  let s := SendCommand 0x2C s
  let s := SendData 0x26 s
  let s := SendCommand 0x03 s
  let s := SendData 0x17 s
  let s := SendCommand 0x04 s
  let s := SendData 0x41 s
  let s := SendData 0x00 s
  let s := SendData 0x32 s
  (0, s)

/-- The method `Epd::SetLut`.  The argument is dereferenced without a test, so it is taken
as the memory it points to. -/
def SetLut (hd : Header) (lut : Int → Byte) (s : World) : World :=
  let s := Serial_print "Writing LUT" s
  let s := { s with epd := { s.epd with lut := some lut } }
  let s := SendCommand hd.WRITE_LUT_REGISTER s
  let s := forLoop 70 (fun i s =>
    let (b, s) := readLut i s
    SendData b s) 70 0 s
  Serial_println " done." s

/-- The method `Epd::SetMemoryArea`. -/
def SetMemoryArea (hd : Header) (x_start y_start x_end y_end : Int) (s : World) : World :=
  let s := SendCommand hd.SET_RAM_X_ADDRESS_START_END_POSITION s
  let s := SendData (toUChar (land32 (ishr x_start 3) 0xFF)) s
  let s := SendData (toUChar (land32 (ishr x_end 3) 0xFF)) s
  let s := SendCommand hd.SET_RAM_Y_ADDRESS_START_END_POSITION s
  let s := SendData (toUChar (land32 y_start 0xFF)) s
  let s := SendData (toUChar (land32 (ishr y_start 8) 0xFF)) s
  let s := SendData (toUChar (land32 y_end 0xFF)) s
  SendData (toUChar (land32 (ishr y_end 8) 0xFF)) s

/-- The method `Epd::SetMemoryPointer`. -/
def SetMemoryPointer (hd : Header) (x y : Int) (s : World) : World :=
  let s := SendCommand hd.SET_RAM_X_ADDRESS_COUNTER s
  let s := SendData (toUChar (land32 (ishr x 3) 0xFF)) s
  let s := SendCommand hd.SET_RAM_Y_ADDRESS_COUNTER s
  let s := SendData (toUChar (land32 y 0xFF)) s
  SendData (toUChar (land32 (ishr y 8) 0xFF)) s

/-- The value `x_end` of the windowed write (source lines 158-162), from the aligned `x`
and `image_width`. -/
def windowXEnd (e : Epd) (x image_width : Int) : Int :=
  if iadd x image_width ≥ e.width then isub e.width 1 else isub (iadd x image_width) 1

/-- The value `y_end` of the windowed write (source lines 163-167). -/
def windowYEnd (e : Epd) (y image_height : Int) : Int :=
  if iadd y image_height ≥ e.height then isub e.height 1 else isub (iadd y image_height) 1

/-- The data loops of the windowed write (source lines 172-176), over the aligned `x` and
`image_width`. -/
def windowRows (image_buffer : Int → Byte) (x y image_width x_end y_end : Int)
    (s : World) : World :=
  forLoop (iadd (isub y_end y) 1) (fun j s =>
    forLoop (Int.tdiv (iadd (isub x_end x) 1) 8) (fun i s =>
      let (b, s) := readImage image_buffer (iadd i (imul j (Int.tdiv image_width 8))) s
      SendData b s) (Int.tdiv (iadd (isub x_end x) 1) 8).toNat 0 s)
    (iadd (isub y_end y) 1).toNat 0 s

/-- The windowed method `Epd::SetFrameMemory(image_buffer, x, y, image_width,
image_height)`.  The pointer is `none` when it is `NULL`. -/
def SetFrameMemoryAt (hd : Header) (image_buffer : Option (Int → Byte))
    (x y image_width image_height : Int) (s : World) : World :=
  match image_buffer with
  | none => s
  | some buf =>
    if x < 0 ∨ image_width < 0 ∨ y < 0 ∨ image_height < 0 then s else
    let x := land32 x 0xF8
    let image_width := land32 image_width 0xF8
    let x_end := windowXEnd s.epd x image_width
    let y_end := windowYEnd s.epd y image_height
    let s := SetMemoryArea hd x y x_end y_end s
    let s := SetMemoryPointer hd x y s
    let s := SendCommand hd.WRITE_RAM s
    windowRows buf x y image_width x_end y_end s

/-- The full-frame method `Epd::SetFrameMemory(image_buffer)`.  The pointer is
dereferenced without a test, so it is taken as the memory it points to. -/
def SetFrameMemory (hd : Header) (image_buffer : Int → Byte) (s : World) : World :=
  let s := SetLut hd lut_full_update s
  let s := Serial_print "Writing frame memory" s
  let s := SetMemoryArea hd 0 0 (isub s.epd.width 1) (isub s.epd.height 1) s
  let s := SetMemoryPointer hd 0 0 s
  let s := SendCommand hd.WRITE_RAM s
  let s := forLoop (imul (Int.tdiv s.epd.width 8) s.epd.height) (fun i s =>
    let (b, s) := readImage image_buffer i s
    SendData b s) (imul (Int.tdiv s.epd.width 8) s.epd.height).toNat 0 s
  Serial_println " done." s

/-- The method `Epd::ClearFrameMemory`. -/
def ClearFrameMemory (hd : Header) (color : Byte) (s : World) : World :=
  let s := SetLut hd lut_full_update s
  let s := Serial_print "Clearing frame memory" s
  let s := SetMemoryArea hd 0 0 (isub s.epd.width 1) (isub s.epd.height 1) s
  let s := SetMemoryPointer hd 0 0 s
  let s := SendCommand hd.WRITE_RAM s
  let s := forLoop (imul (Int.tdiv s.epd.width 8) s.epd.height) (fun _ s =>
    SendData color s) (imul (Int.tdiv s.epd.width 8) s.epd.height).toNat 0 s
  Serial_println " done." s

/-- The method `Epd::DisplayFrame`; `fuel` is handed to the wait. -/
def DisplayFrame (fuel : Nat) (s : World) : Option World :=
  let s := Serial_print "Displaying frame" s
  let s := SendCommand 0x3A s
  let s := SendData 26 s
  let s := SendCommand 0x3B s
  let s := SendData 0x08 s
  let s := SendCommand 0x01 s
  let s := SendData 0x27 s
  let s := SendData 0x01 s
  let s := SendData 0x00 s
  let s := SendCommand 0x0f s
  let s := SendData 0x00 s
  let s := SendData 0x00 s
  let s := SendCommand 0x22 s
  let s := SendData 0xC7 s
  let s := SendCommand 0x20 s
  match WaitUntilIdle fuel s with
  | none => none
  | some s => some (Serial_println " done." s)

/-- The method `Epd::Sleep`; `fuel` is handed to the wait. -/
def Sleep (hd : Header) (fuel : Nat) (s : World) : Option World :=
  let s := SendCommand hd.DEEP_SLEEP_MODE s
  WaitUntilIdle fuel s

/-- A sample assignment of the header constants, for evaluating the driver on concrete
inputs. -/
def sampleHeader : Header :=
  { RST_PIN := 16
    DC_PIN := 17
    CS_PIN := 5
    BUSY_PIN := 4
    SW_RESET := 0x12
    DEEP_SLEEP_MODE := 0x10
    WRITE_RAM := 0x24
    WRITE_LUT_REGISTER := 0x32
    SET_RAM_X_ADDRESS_START_END_POSITION := 0x44
    SET_RAM_Y_ADDRESS_START_END_POSITION := 0x45
    SET_RAM_X_ADDRESS_COUNTER := 0x4E
    SET_RAM_Y_ADDRESS_COUNTER := 0x4F }

/-! ## The vocabulary of the statements -/

/-- A command byte on the bus: select line LOW, then the transfer. -/
def cmd (dc : Nat) (c : Byte) : List Event :=
  [Event.DigitalWrite dc Level.LOW, Event.SpiTransfer c]

/-- A data byte on the bus: select line HIGH, then the transfer. -/
def dat (dc : Nat) (d : Byte) : List Event :=
  [Event.DigitalWrite dc Level.HIGH, Event.SpiTransfer d]

/-- The bytes transferred by a trace, in order. -/
def transfers : List Event → List Byte
  | [] => []
  | Event.SpiTransfer b :: rest => b :: transfers rest
  | _ :: rest => transfers rest

/-- The stream of `SetLut`: the register command, then the 70 table bytes. -/
def lutStream (dc : Nat) (op : Byte) (table : Int → Byte) : List Event :=
  cmd dc op ++ (List.range 70).flatMap (fun (k : Nat) => dat dc (table (k : Int)))

/-- The stream of `SetMemoryArea`: X start and end in byte columns, Y start and end as
low byte, high byte. -/
def areaStream (hd : Header) (dc : Nat) (x_start y_start x_end y_end : Int) : List Event :=
  cmd dc hd.SET_RAM_X_ADDRESS_START_END_POSITION
    ++ dat dc (toUChar (x_start / 8)) ++ dat dc (toUChar (x_end / 8))
    ++ cmd dc hd.SET_RAM_Y_ADDRESS_START_END_POSITION
    ++ dat dc (toUChar (y_start % 256)) ++ dat dc (toUChar (y_start / 256))
    ++ dat dc (toUChar (y_end % 256)) ++ dat dc (toUChar (y_end / 256))

/-- The stream of `SetMemoryPointer`: X in byte columns, Y as low byte, high byte. -/
def pointerStream (hd : Header) (dc : Nat) (x y : Int) : List Event :=
  cmd dc hd.SET_RAM_X_ADDRESS_COUNTER ++ dat dc (toUChar (x / 8))
    ++ cmd dc hd.SET_RAM_Y_ADDRESS_COUNTER
    ++ dat dc (toUChar (y % 256)) ++ dat dc (toUChar (y / 256))

/-- The stream `DisplayFrame` emits before it starts waiting. -/
def displayStream (dc : Nat) : List Event :=
  cmd dc 0x3A ++ dat dc 26
    ++ cmd dc 0x3B ++ dat dc 0x08
    ++ cmd dc 0x01 ++ dat dc 0x27 ++ dat dc 0x01 ++ dat dc 0x00
    ++ cmd dc 0x0f ++ dat dc 0x00 ++ dat dc 0x00
    ++ cmd dc 0x22 ++ dat dc 0xC7
    ++ cmd dc 0x20

/-- The trace of a wait that sees `n` busy samples and then an idle one: `n` times a read
of the busy line followed by a delay of 100 ms, then the read that returns idle. -/
def waitStream (busy_pin n : Nat) : List Event :=
  (List.replicate n [Event.DigitalRead busy_pin, Event.DelayMs 100]).flatten
    ++ [Event.DigitalRead busy_pin]

/-- The byte that follows the first occurrence of `c` in a list of transferred bytes. -/
def byteAfter (c : Byte) : List Byte → Option Byte
  | a :: b :: rest => if a = c then some b else byteAfter c (b :: rest)
  | _ => none

/-- The stream an operation emits when run in the world `s`: what it adds to the trace. -/
def emitted (f : World → World) (s : World) : List Event :=
  (f s).trace.drop s.trace.length

/-! ## Lemmas

### Bus framing and loops -/

theorem SendCommand_trace (c : Byte) (s : World) :
    (SendCommand c s).trace = s.trace ++ cmd s.epd.dc_pin c := by
  simp [SendCommand, DigitalWrite, SpiTransfer, cmd]

theorem SendData_trace (d : Byte) (s : World) :
    (SendData d s).trace = s.trace ++ dat s.epd.dc_pin d := by
  simp [SendData, DigitalWrite, SpiTransfer, dat]

theorem SendCommand_epd (c : Byte) (s : World) : (SendCommand c s).epd = s.epd := by
  simp only [SendCommand, DigitalWrite, SpiTransfer]

theorem SendData_epd (d : Byte) (s : World) : (SendData d s).epd = s.epd := by
  simp only [SendData, DigitalWrite, SpiTransfer]

theorem forLoop_fuel (hi : Int) (body : Int → World → World) :
    ∀ (fuel : Nat) (i : Int) (s : World), (hi - i).toNat ≤ fuel →
      forLoop hi body fuel i s = forLoop hi body (hi - i).toNat i s := by
  intro fuel
  induction fuel with
  | zero =>
    intro i s h
    have : (hi - i).toNat = 0 := by omega
    rw [this]
  | succ n ih =>
    intro i s h
    by_cases hlt : i < hi
    · obtain ⟨m, hm⟩ : ∃ m, (hi - i).toNat = m + 1 := ⟨(hi - i).toNat - 1, by omega⟩
      have hm2 : (hi - (i + 1)).toNat = m := by omega
      rw [hm]
      simp only [forLoop, hlt, if_true]
      rw [ih (i + 1) (body i s) (by omega), hm2]
    · have : (hi - i).toNat = 0 := by omega
      rw [this]
      simp [forLoop, hlt]

/-- What a loop adds to a list-valued part `π` of the world, when each pass keeps the
invariant `I` and appends `f i` to that part. -/
theorem forLoop_acc {α : Type} (π : World → List α) (I : World → Prop) (hi lo : Int)
    (body : Int → World → World) (f : Int → List α)
    (hb : ∀ i s, lo ≤ i → i < hi → I s → I (body i s) ∧ π (body i s) = π s ++ f i) :
    ∀ (fuel : Nat) (i : Int) (s : World), lo ≤ i → I s → (hi - i).toNat ≤ fuel →
      I (forLoop hi body fuel i s) ∧
      π (forLoop hi body fuel i s)
        = π s ++ (List.range (hi - i).toNat).flatMap (fun k => f (i + (k : Int))) := by
  intro fuel
  induction fuel with
  | zero =>
    intro i s _ hI h
    have h0 : (hi - i).toNat = 0 := by omega
    simp [forLoop, h0, hI]
  | succ n ih =>
    intro i s hlo hI h
    by_cases hlt : i < hi
    · obtain ⟨m, hm⟩ : ∃ m, (hi - i).toNat = m + 1 := ⟨(hi - i).toNat - 1, by omega⟩
      have hm2 : (hi - (i + 1)).toNat = m := by omega
      obtain ⟨hI1, hπ1⟩ := hb i s hlo hlt hI
      obtain ⟨hI2, hπ2⟩ := ih (i + 1) (body i s) (by omega) hI1 (by omega)
      simp only [forLoop, hlt, if_true]
      refine ⟨hI2, ?_⟩
      rw [hπ2, hπ1, hm, hm2, List.range_succ_eq_map, List.flatMap_cons, List.flatMap_map]
      have hf : (fun k : Nat => f (i + 1 + (k : Int))) = (fun k : Nat => f (i + ((k + 1 : Nat) : Int))) := by
        funext k
        congr 1
        push_cast
        ring
      simp [List.append_assoc, Function.comp, hf]
    · have h0 : (hi - i).toNat = 0 := by omega
      simp [forLoop, hlt, h0, hI]


/-! ### Machine arithmetic -/

theorem wrap32_of_range (z : Int) (h0 : -2147483648 ≤ z) (h1 : z < 2147483648) :
    wrap32 z = z := by
  unfold wrap32; omega

theorem toU32_of_nonneg (z : Int) (h0 : 0 ≤ z) (h1 : z < 4294967296) :
    toU32 z = z.toNat := by
  unfold toU32
  rw [Int.emod_eq_of_lt h0 h1]

theorem land32_255 (a : Int) : land32 a 0xFF = a % 256 := by
  have h := Nat.and_pow_two_sub_one_eq_mod (toU32 a) 8
  norm_num at h
  have h255 : toU32 0xFF = 255 := by decide
  unfold land32
  rw [h255, h]
  unfold wrap32 toU32
  omega

theorem toUChar_mod (a : Int) : toUChar (a % 256) = toUChar a := by
  apply Fin.ext
  simp [toUChar]

theorem ishr_eq_div (a : Int) (k : Nat) : ishr a k = a / ((2 ^ k : Nat) : Int) :=
  Int.shiftRight_eq_div_pow a k

theorem toUChar_land (a : Int) : toUChar (land32 a 0xFF) = toUChar a := by
  rw [land32_255, toUChar_mod]

theorem ishr_three (a : Int) : ishr a 3 = a / 8 := by
  rw [ishr_eq_div]; norm_num

theorem ishr_eight (a : Int) : ishr a 8 = a / 256 := by
  rw [ishr_eq_div]; norm_num

/-! ### Streams of the addressing methods -/

theorem SetMemoryArea_trace (hd : Header) (x_start y_start x_end y_end : Int) (s : World) :
    (SetMemoryArea hd x_start y_start x_end y_end s).trace
      = s.trace ++ areaStream hd s.epd.dc_pin x_start y_start x_end y_end := by
  simp [SetMemoryArea, SendCommand_trace, SendData_trace, SendCommand_epd, SendData_epd,
    areaStream, toUChar_land, toUChar_mod, ishr_three, ishr_eight]

theorem SetMemoryArea_epd (hd : Header) (x_start y_start x_end y_end : Int) (s : World) :
    (SetMemoryArea hd x_start y_start x_end y_end s).epd = s.epd := by
  simp [SetMemoryArea, SendCommand_epd, SendData_epd]

theorem SetMemoryPointer_trace (hd : Header) (x y : Int) (s : World) :
    (SetMemoryPointer hd x y s).trace = s.trace ++ pointerStream hd s.epd.dc_pin x y := by
  simp [SetMemoryPointer, SendCommand_trace, SendData_trace, SendCommand_epd, SendData_epd,
    pointerStream, toUChar_land, toUChar_mod, ishr_three, ishr_eight]

theorem SetMemoryPointer_epd (hd : Header) (x y : Int) (s : World) :
    (SetMemoryPointer hd x y s).epd = s.epd := by
  simp [SetMemoryPointer, SendCommand_epd, SendData_epd]

/-! ### The stream of `SetLut` -/

/-- The loop of `SetLut`, started in a world whose `lut` field is the table. -/
theorem SetLut_loop (table : Int → Byte) (e : Epd) (he : e.lut = some table) (s : World)
    (hs : s.epd = e) :
    (forLoop 70 (fun i s =>
        let (b, s) := readLut i s
        SendData b s) 70 0 s).epd = e ∧
    (forLoop 70 (fun i s =>
        let (b, s) := readLut i s
        SendData b s) 70 0 s).trace
      = s.trace ++ (List.range 70).flatMap (fun (k : Nat) => dat e.dc_pin (table (k : Int))) := by
  have h := forLoop_acc World.trace (fun w => w.epd = e) 70 0
    (fun i s =>
        let (b, s) := readLut i s
        SendData b s) (fun i => dat e.dc_pin (table i))
    (by
      intro i w _ _ hw
      refine ⟨by simp [readLut, SendData_epd, hw], ?_⟩
      simp [readLut, SendData_trace, hw, he])
    70 0 s (le_refl _) hs (by decide)
  simpa using h

theorem SetLut_epd (hd : Header) (table : Int → Byte) (s : World) :
    (SetLut hd table s).epd = { s.epd with lut := some table } := by
  have h := (SetLut_loop table { s.epd with lut := some table } rfl
    (SendCommand hd.WRITE_LUT_REGISTER
      { (Serial_print "Writing LUT" s) with
        epd := { (Serial_print "Writing LUT" s).epd with lut := some table } }) rfl).1
  unfold SetLut
  simp only [Serial_println]
  exact h

theorem SetLut_trace (hd : Header) (table : Int → Byte) (s : World) :
    (SetLut hd table s).trace
      = s.trace ++ lutStream s.epd.dc_pin hd.WRITE_LUT_REGISTER table := by
  unfold SetLut
  have h := (SetLut_loop table { s.epd with lut := some table } rfl
    (SendCommand hd.WRITE_LUT_REGISTER
      { (Serial_print "Writing LUT" s) with
        epd := { (Serial_print "Writing LUT" s).epd with lut := some table } }) rfl).2
  simp only [Serial_println] at h ⊢
  rw [h, SendCommand_trace]
  simp [lutStream, Serial_print]

theorem transfers_append (a b : List Event) : transfers (a ++ b) = transfers a ++ transfers b := by
  induction a with
  | nil => rfl
  | cons e rest ih => cases e <;> simp [transfers, ih]

theorem transfers_cmd (dc : Nat) (c : Byte) : transfers (cmd dc c) = [c] := rfl

theorem transfers_dat (dc : Nat) (d : Byte) : transfers (dat dc d) = [d] := rfl

theorem transfers_flatMap_dat (dc : Nat) (g : Nat → Byte) (l : List Nat) :
    transfers (l.flatMap (fun k => dat dc (g k))) = l.map g := by
  induction l with
  | nil => rfl
  | cons a rest ih => simp [List.flatMap_cons, transfers_append, transfers_dat, ih]

/-- C8: for every table, `SetLut(table)` appends to the trace exactly one
`WRITE_LUT_REGISTER` command (select line LOW) followed by the 70 data bytes `table[0]`,
..., `table[69]` in that order (select line HIGH): 71 byte transfers, whatever the table
holds. -/
theorem SetLut_emits_71 (hd : Header) (table : Int → Byte) (s : World) :
    (SetLut hd table s).trace
        = s.trace ++ (cmd s.epd.dc_pin hd.WRITE_LUT_REGISTER
            ++ (List.range 70).flatMap (fun (k : Nat) => dat s.epd.dc_pin (table (k : Int)))) ∧
    transfers (cmd s.epd.dc_pin hd.WRITE_LUT_REGISTER
            ++ (List.range 70).flatMap (fun (k : Nat) => dat s.epd.dc_pin (table (k : Int))))
        = hd.WRITE_LUT_REGISTER :: (List.range 70).map (fun (k : Nat) => table (k : Int)) ∧
    (transfers (cmd s.epd.dc_pin hd.WRITE_LUT_REGISTER
            ++ (List.range 70).flatMap (fun (k : Nat) => dat s.epd.dc_pin (table (k : Int))))).length
        = 71 := by
  have ht : transfers (cmd s.epd.dc_pin hd.WRITE_LUT_REGISTER
            ++ (List.range 70).flatMap (fun (k : Nat) => dat s.epd.dc_pin (table (k : Int))))
        = hd.WRITE_LUT_REGISTER :: (List.range 70).map (fun (k : Nat) => table (k : Int)) := by
    rw [transfers_append, transfers_cmd,
      transfers_flatMap_dat s.epd.dc_pin (fun (k : Nat) => table (k : Int))]
    rfl
  refine ⟨SetLut_trace hd table s, ht, ?_⟩
  rw [ht]
  simp

/-! ### Full-frame writes -/

theorem Serial_print_trace (t : String) (s : World) :
    (Serial_print t s).trace = s.trace := by
  simp only [Serial_print]

theorem Serial_print_epd (t : String) (s : World) : (Serial_print t s).epd = s.epd := by
  simp only [Serial_print]

theorem Serial_println_trace (t : String) (s : World) :
    (Serial_println t s).trace = s.trace := by
  simp only [Serial_println]

theorem Serial_println_epd (t : String) (s : World) :
    (Serial_println t s).epd = s.epd := by
  simp only [Serial_println]

/-- The data loop of the full-frame write: `n` bytes, `image_buffer[0]` first. -/
theorem imageLoop_spec (image_buffer : Int → Byte) (n : Int) (s : World) :
    (forLoop n (fun i s =>
        let (b, s) := readImage image_buffer i s
        SendData b s) n.toNat 0 s).epd = s.epd ∧
    (forLoop n (fun i s =>
        let (b, s) := readImage image_buffer i s
        SendData b s) n.toNat 0 s).trace
      = s.trace ++ (List.range n.toNat).flatMap
          (fun (k : Nat) => dat s.epd.dc_pin (image_buffer (k : Int))) := by
  have h := forLoop_acc World.trace (fun w => w.epd = s.epd) n 0
    (fun i s =>
        let (b, s) := readImage image_buffer i s
        SendData b s) (fun i => dat s.epd.dc_pin (image_buffer i))
    (by
      intro i w _ _ hw
      refine ⟨by simp [readImage, SendData_epd, hw], ?_⟩
      simp [readImage, SendData_trace, hw])
    n.toNat 0 s (le_refl _) rfl (by simp)
  simpa using h

/-- The data loop of the clear: `n` bytes, each the colour. -/
theorem colorLoop_spec (color : Byte) (n : Int) (s : World) :
    (forLoop n (fun _ s => SendData color s) n.toNat 0 s).epd = s.epd ∧
    (forLoop n (fun _ s => SendData color s) n.toNat 0 s).trace
      = s.trace ++ (List.range n.toNat).flatMap (fun (_ : Nat) => dat s.epd.dc_pin color) := by
  have h := forLoop_acc World.trace (fun w => w.epd = s.epd) n 0
    (fun _ s => SendData color s) (fun _ => dat s.epd.dc_pin color)
    (by
      intro i w _ _ hw
      refine ⟨by simp [SendData_epd, hw], ?_⟩
      simp [SendData_trace, hw])
    n.toNat 0 s (le_refl _) rfl (by simp)
  simpa using h

theorem imageLoop_epd (image_buffer : Int → Byte) (n : Int) (s : World) :
    (forLoop n (fun i s =>
        let (b, s) := readImage image_buffer i s
        SendData b s) n.toNat 0 s).epd = s.epd :=
  (imageLoop_spec image_buffer n s).1

theorem imageLoop_trace (image_buffer : Int → Byte) (n : Int) (s : World) :
    (forLoop n (fun i s =>
        let (b, s) := readImage image_buffer i s
        SendData b s) n.toNat 0 s).trace
      = s.trace ++ (List.range n.toNat).flatMap
          (fun (k : Nat) => dat s.epd.dc_pin (image_buffer (k : Int))) :=
  (imageLoop_spec image_buffer n s).2

theorem colorLoop_epd (color : Byte) (n : Int) (s : World) :
    (forLoop n (fun _ s => SendData color s) n.toNat 0 s).epd = s.epd :=
  (colorLoop_spec color n s).1

theorem colorLoop_trace (color : Byte) (n : Int) (s : World) :
    (forLoop n (fun _ s => SendData color s) n.toNat 0 s).trace
      = s.trace ++ (List.range n.toNat).flatMap (fun (_ : Nat) => dat s.epd.dc_pin color) :=
  (colorLoop_spec color n s).2

theorem SetFrameMemory_trace (hd : Header) (image_buffer : Int → Byte) (s : World)
    (hw : s.epd.width = EPD_WIDTH) (hh : s.epd.height = EPD_HEIGHT) :
    (SetFrameMemory hd image_buffer s).trace
      = s.trace ++ lutStream s.epd.dc_pin hd.WRITE_LUT_REGISTER lut_full_update
          ++ areaStream hd s.epd.dc_pin 0 0 (EPD_WIDTH - 1) (EPD_HEIGHT - 1)
          ++ pointerStream hd s.epd.dc_pin 0 0
          ++ cmd s.epd.dc_pin hd.WRITE_RAM
          ++ (List.range 4736).flatMap
              (fun (k : Nat) => dat s.epd.dc_pin (image_buffer (k : Int))) := by
  have hn : (imul (Int.tdiv EPD_WIDTH 8) EPD_HEIGHT).toNat = 4736 := by decide
  have hx : isub EPD_WIDTH 1 = EPD_WIDTH - 1 := by decide
  have hy : isub EPD_HEIGHT 1 = EPD_HEIGHT - 1 := by decide
  unfold SetFrameMemory
  rw [Serial_println_trace, imageLoop_trace]
  simp only [SendCommand_trace,
    SendCommand_epd, SetMemoryPointer_trace, SetMemoryPointer_epd, SetMemoryArea_trace,
    SetMemoryArea_epd, Serial_print_trace, Serial_print_epd, SetLut_trace, SetLut_epd,
    hw, hh, hn, hx, hy]

theorem ClearFrameMemory_trace (hd : Header) (color : Byte) (s : World)
    (hw : s.epd.width = EPD_WIDTH) (hh : s.epd.height = EPD_HEIGHT) :
    (ClearFrameMemory hd color s).trace
      = s.trace ++ lutStream s.epd.dc_pin hd.WRITE_LUT_REGISTER lut_full_update
          ++ areaStream hd s.epd.dc_pin 0 0 (EPD_WIDTH - 1) (EPD_HEIGHT - 1)
          ++ pointerStream hd s.epd.dc_pin 0 0
          ++ cmd s.epd.dc_pin hd.WRITE_RAM
          ++ (List.range 4736).flatMap (fun (_ : Nat) => dat s.epd.dc_pin color) := by
  have hn : (imul (Int.tdiv EPD_WIDTH 8) EPD_HEIGHT).toNat = 4736 := by decide
  have hx : isub EPD_WIDTH 1 = EPD_WIDTH - 1 := by decide
  have hy : isub EPD_HEIGHT 1 = EPD_HEIGHT - 1 := by decide
  unfold ClearFrameMemory
  rw [Serial_println_trace, colorLoop_trace]
  simp only [SendCommand_trace,
    SendCommand_epd, SetMemoryPointer_trace, SetMemoryPointer_epd, SetMemoryArea_trace,
    SetMemoryArea_epd, Serial_print_trace, Serial_print_epd, SetLut_trace, SetLut_epd,
    hw, hh, hn, hx, hy]
/-- C1: on the 128x296 panel, the full-frame `SetFrameMemory(image_buffer)` and
`ClearFrameMemory(color)` each append to the trace exactly: the stream of
`SetLut(lut_full_update)`, then that of `SetMemoryArea(0, 0, width-1, height-1)`, then that
of `SetMemoryPointer(0, 0)`, then the `WRITE_RAM` command, then `width/8 * height = 4736`
data bytes and nothing more; the `k`-th data byte is `image_buffer[k]` for the write and
`color` for the clear.  Each stream is given twice: as the trace of the methods run in that
order, and byte by byte. -/
theorem full_frame_stream (hd : Header) (image_buffer : Int → Byte) (color : Byte) (s : World)
    (hw : s.epd.width = EPD_WIDTH) (hh : s.epd.height = EPD_HEIGHT) :
    (SetFrameMemory hd image_buffer s).trace
        = (SendCommand hd.WRITE_RAM (SetMemoryPointer hd 0 0
            (SetMemoryArea hd 0 0 (s.epd.width - 1) (s.epd.height - 1)
              (SetLut hd lut_full_update s)))).trace
          ++ (List.range 4736).flatMap
              (fun (k : Nat) => dat s.epd.dc_pin (image_buffer (k : Int))) ∧
    (ClearFrameMemory hd color s).trace
        = (SendCommand hd.WRITE_RAM (SetMemoryPointer hd 0 0
            (SetMemoryArea hd 0 0 (s.epd.width - 1) (s.epd.height - 1)
              (SetLut hd lut_full_update s)))).trace
          ++ (List.range 4736).flatMap (fun (_ : Nat) => dat s.epd.dc_pin color) ∧
    (SetFrameMemory hd image_buffer s).trace
        = s.trace ++ lutStream s.epd.dc_pin hd.WRITE_LUT_REGISTER lut_full_update
          ++ areaStream hd s.epd.dc_pin 0 0 127 295
          ++ pointerStream hd s.epd.dc_pin 0 0
          ++ cmd s.epd.dc_pin hd.WRITE_RAM
          ++ (List.range 4736).flatMap
              (fun (k : Nat) => dat s.epd.dc_pin (image_buffer (k : Int))) ∧
    (ClearFrameMemory hd color s).trace
        = s.trace ++ lutStream s.epd.dc_pin hd.WRITE_LUT_REGISTER lut_full_update
          ++ areaStream hd s.epd.dc_pin 0 0 127 295
          ++ pointerStream hd s.epd.dc_pin 0 0
          ++ cmd s.epd.dc_pin hd.WRITE_RAM
          ++ (List.range 4736).flatMap (fun (_ : Nat) => dat s.epd.dc_pin color) ∧
    s.epd.width / 8 * s.epd.height = 4736 := by
  have h1 := SetFrameMemory_trace hd image_buffer s hw hh
  have h2 := ClearFrameMemory_trace hd color s hw hh
  have hpre : (SendCommand hd.WRITE_RAM (SetMemoryPointer hd 0 0
            (SetMemoryArea hd 0 0 (s.epd.width - 1) (s.epd.height - 1)
              (SetLut hd lut_full_update s)))).trace
      = s.trace ++ lutStream s.epd.dc_pin hd.WRITE_LUT_REGISTER lut_full_update
          ++ areaStream hd s.epd.dc_pin 0 0 (EPD_WIDTH - 1) (EPD_HEIGHT - 1)
          ++ pointerStream hd s.epd.dc_pin 0 0
          ++ cmd s.epd.dc_pin hd.WRITE_RAM := by
    simp only [SendCommand_trace, SendCommand_epd, SetMemoryPointer_trace,
      SetMemoryPointer_epd, SetMemoryArea_trace, SetMemoryArea_epd, SetLut_trace, SetLut_epd,
      hw, hh]
  have e1 : EPD_WIDTH - 1 = 127 := by decide
  have e2 : EPD_HEIGHT - 1 = 295 := by decide
  refine ⟨?_, ?_, ?_, ?_, ?_⟩
  · rw [hpre, h1]
  · rw [hpre, h2]
  · rw [h1, e1, e2]
  · rw [h2, e1, e2]
  · rw [hw, hh]; decide

theorem full_frame_stream_witness :
    (World.boot sampleHeader 0 (fun _ => Level.LOW)).epd.width = EPD_WIDTH ∧
    (World.boot sampleHeader 0 (fun _ => Level.LOW)).epd.height = EPD_HEIGHT ∧
    (SetFrameMemory sampleHeader (fun _ => 0xFF)
        (World.boot sampleHeader 0 (fun _ => Level.LOW))).trace
      = [] ++ lutStream 17 0x32 lut_full_update
          ++ areaStream sampleHeader 17 0 0 127 295
          ++ pointerStream sampleHeader 17 0 0
          ++ cmd 17 0x24
          ++ (List.range 4736).flatMap (fun (_ : Nat) => dat 17 0xFF) :=
  ⟨rfl, rfl,
    (full_frame_stream sampleHeader (fun _ => 0xFF) 0
      (World.boot sampleHeader 0 (fun _ => Level.LOW)) rfl rfl).2.2.1⟩

/-! ### The windowed write -/

/-- The data bytes of the windowed write, as the loops produce them: row `j`, then column
`i`, the byte read at `i + j * (image_width / 8)` in machine arithmetic. -/
theorem windowRows_spec (image_buffer : Int → Byte) (x y image_width x_end y_end : Int)
    (s : World) :
    (windowRows image_buffer x y image_width x_end y_end s).epd = s.epd ∧
    (windowRows image_buffer x y image_width x_end y_end s).trace
      = s.trace ++ (List.range (iadd (isub y_end y) 1).toNat).flatMap (fun (j : Nat) =>
          (List.range (Int.tdiv (iadd (isub x_end x) 1) 8).toNat).flatMap (fun (i : Nat) =>
            dat s.epd.dc_pin
              (image_buffer (iadd (i : Int) (imul (j : Int) (Int.tdiv image_width 8)))))) := by
  have inner : ∀ (j : Int) (w : World), w.epd = s.epd →
      (forLoop (Int.tdiv (iadd (isub x_end x) 1) 8) (fun i s =>
          let (b, s) := readImage image_buffer (iadd i (imul j (Int.tdiv image_width 8))) s
          SendData b s) (Int.tdiv (iadd (isub x_end x) 1) 8).toNat 0 w).epd = s.epd ∧
      (forLoop (Int.tdiv (iadd (isub x_end x) 1) 8) (fun i s =>
          let (b, s) := readImage image_buffer (iadd i (imul j (Int.tdiv image_width 8))) s
          SendData b s) (Int.tdiv (iadd (isub x_end x) 1) 8).toNat 0 w).trace
        = w.trace ++ (List.range (Int.tdiv (iadd (isub x_end x) 1) 8).toNat).flatMap
            (fun (i : Nat) => dat s.epd.dc_pin
              (image_buffer (iadd (i : Int) (imul j (Int.tdiv image_width 8))))) := by
    intro j w hw
    have h := forLoop_acc World.trace (fun w => w.epd = s.epd)
      (Int.tdiv (iadd (isub x_end x) 1) 8) 0
      (fun i s =>
          let (b, s) := readImage image_buffer (iadd i (imul j (Int.tdiv image_width 8))) s
          SendData b s)
      (fun i => dat s.epd.dc_pin (image_buffer (iadd i (imul j (Int.tdiv image_width 8)))))
      (by
        intro i v _ _ hv
        refine ⟨by simp [readImage, SendData_epd, hv], ?_⟩
        simp [readImage, SendData_trace, hv])
      (Int.tdiv (iadd (isub x_end x) 1) 8).toNat 0 w (le_refl _) hw (by simp)
    simpa using h
  have h := forLoop_acc World.trace (fun w => w.epd = s.epd) (iadd (isub y_end y) 1) 0
    (fun j s =>
      forLoop (Int.tdiv (iadd (isub x_end x) 1) 8) (fun i s =>
        let (b, s) := readImage image_buffer (iadd i (imul j (Int.tdiv image_width 8))) s
        SendData b s) (Int.tdiv (iadd (isub x_end x) 1) 8).toNat 0 s)
    (fun j => (List.range (Int.tdiv (iadd (isub x_end x) 1) 8).toNat).flatMap
            (fun (i : Nat) => dat s.epd.dc_pin
              (image_buffer (iadd (i : Int) (imul j (Int.tdiv image_width 8))))))
    (by
      intro j w _ _ hw
      exact inner j w hw)
    (iadd (isub y_end y) 1).toNat 0 s (le_refl _) rfl (by simp)
  unfold windowRows
  simpa using h

theorem windowRows_epd (image_buffer : Int → Byte) (x y image_width x_end y_end : Int)
    (s : World) : (windowRows image_buffer x y image_width x_end y_end s).epd = s.epd :=
  (windowRows_spec image_buffer x y image_width x_end y_end s).1

/-- An accepted windowed write is the addressing sequence followed by the data loops. -/
theorem SetFrameMemoryAt_accepted (hd : Header) (buf : Int → Byte)
    (x y image_width image_height : Int) (s : World)
    (hx : 0 ≤ x) (hy : 0 ≤ y) (hw : 0 ≤ image_width) (hh : 0 ≤ image_height) :
    SetFrameMemoryAt hd (some buf) x y image_width image_height s
      = windowRows buf (land32 x 0xF8) y (land32 image_width 0xF8)
          (windowXEnd s.epd (land32 x 0xF8) (land32 image_width 0xF8))
          (windowYEnd s.epd y image_height)
          (SendCommand hd.WRITE_RAM (SetMemoryPointer hd (land32 x 0xF8) y
            (SetMemoryArea hd (land32 x 0xF8) y
              (windowXEnd s.epd (land32 x 0xF8) (land32 image_width 0xF8))
              (windowYEnd s.epd y image_height) s))) := by
  have hrej : ¬ (x < 0 ∨ image_width < 0 ∨ y < 0 ∨ image_height < 0) := by omega
  simp only [SetFrameMemoryAt, hrej, if_false]

theorem and_248 (n : Nat) : n &&& 248 = n % 256 - n % 8 := by
  have hsmall : ∀ m < 256, m &&& 248 = m - m % 8 := by
    set_option maxRecDepth 100000 in decide
  have h255 := Nat.and_pow_two_sub_one_eq_mod n 8
  norm_num at h255
  have hsplit : (248 : Nat) = 255 &&& 248 := by decide
  calc n &&& 248 = n &&& (255 &&& 248) := by rw [← hsplit]
    _ = (n &&& 255) &&& 248 := by rw [Nat.and_assoc]
    _ = (n % 256) &&& 248 := by rw [h255]
    _ = n % 256 - (n % 256) % 8 := hsmall _ (Nat.mod_lt _ (by decide))
    _ = n % 256 - n % 8 := by omega

/-- The mask `& 0xF8` on a non-negative `int`: it clears the low three bits and every bit
from bit 8 upwards. -/
theorem land32_248 (x : Int) (h0 : 0 ≤ x) (h1 : x < 2147483648) :
    land32 x 0xF8 = x % 256 - x % 8 := by
  have h248 : toU32 0xF8 = 248 := by decide
  unfold land32
  rw [h248, toU32_of_nonneg x h0 (by omega), and_248]
  have hc : ((x.toNat % 256 - x.toNat % 8 : Nat) : Int) = x % 256 - x % 8 := by omega
  rw [hc]
  apply wrap32_of_range <;> omega

/-- C2: for an accepted windowed write (non-null buffer, `x`, `y`, `image_width`,
`image_height` non-negative `int`s, `y + image_height` not overflowing) on a panel whose
width and height are positive `int`s, the `x_end` and `y_end` that are computed and handed
to `SetMemoryArea` are at most `width - 1` and `height - 1`; `x_end` is exactly `width - 1`
when the aligned `x` plus the aligned `image_width` reaches `width`, and `y_end` is exactly
`height - 1` when `y + image_height` reaches `height`. -/
theorem window_end_clipped (hd : Header) (buf : Int → Byte)
    (x y image_width image_height : Int) (s : World)
    (hx : 0 ≤ x) (hx' : x < 2147483648) (hy : 0 ≤ y)
    (hw : 0 ≤ image_width) (hw' : image_width < 2147483648) (hh : 0 ≤ image_height)
    (hsum : y + image_height < 2147483648)
    (hW : 0 < s.epd.width) (hW' : s.epd.width < 2147483648)
    (hH : 0 < s.epd.height) (hH' : s.epd.height < 2147483648) :
    windowXEnd s.epd (land32 x 0xF8) (land32 image_width 0xF8) ≤ s.epd.width - 1 ∧
    windowYEnd s.epd y image_height ≤ s.epd.height - 1 ∧
    (land32 x 0xF8 + land32 image_width 0xF8 ≥ s.epd.width →
      windowXEnd s.epd (land32 x 0xF8) (land32 image_width 0xF8) = s.epd.width - 1) ∧
    (y + image_height ≥ s.epd.height → windowYEnd s.epd y image_height = s.epd.height - 1) ∧
    SetFrameMemoryAt hd (some buf) x y image_width image_height s
      = windowRows buf (land32 x 0xF8) y (land32 image_width 0xF8)
          (windowXEnd s.epd (land32 x 0xF8) (land32 image_width 0xF8))
          (windowYEnd s.epd y image_height)
          (SendCommand hd.WRITE_RAM (SetMemoryPointer hd (land32 x 0xF8) y
            (SetMemoryArea hd (land32 x 0xF8) y
              (windowXEnd s.epd (land32 x 0xF8) (land32 image_width 0xF8))
              (windowYEnd s.epd y image_height) s))) := by
  have hxa := land32_248 x hx hx'
  have hwa := land32_248 image_width hw hw'
  refine ⟨?_, ?_, ?_, ?_, SetFrameMemoryAt_accepted hd buf x y image_width image_height s
    hx hy hw hh⟩
  · rw [hxa, hwa]
    unfold windowXEnd iadd isub wrap32
    split <;> omega
  · unfold windowYEnd iadd isub wrap32
    split <;> omega
  · rw [hxa, hwa]
    unfold windowXEnd iadd isub wrap32
    intro h
    split <;> omega
  · unfold windowYEnd iadd isub wrap32
    intro h
    split <;> omega

theorem window_end_clipped_witness :
    windowXEnd (Epd.new sampleHeader) (land32 120 0xF8) (land32 100 0xF8) ≤ 128 - 1 ∧
    windowYEnd (Epd.new sampleHeader) 290 10 ≤ 296 - 1 :=
  ⟨(window_end_clipped sampleHeader (fun _ => 0) 120 290 100 10
      (World.boot sampleHeader 0 (fun _ => Level.LOW))
      (by decide) (by decide) (by decide) (by decide) (by decide) (by decide) (by decide)
      (by decide) (by decide) (by decide) (by decide)).1,
   (window_end_clipped sampleHeader (fun _ => 0) 120 290 100 10
      (World.boot sampleHeader 0 (fun _ => Level.LOW))
      (by decide) (by decide) (by decide) (by decide) (by decide) (by decide) (by decide)
      (by decide) (by decide) (by decide) (by decide)).2.1⟩

theorem SetFrameMemoryAt_trace (hd : Header) (buf : Int → Byte)
    (x y image_width image_height : Int) (s : World)
    (hx : 0 ≤ x) (hy : 0 ≤ y) (hw : 0 ≤ image_width) (hh : 0 ≤ image_height) :
    (SetFrameMemoryAt hd (some buf) x y image_width image_height s).trace
      = s.trace
        ++ areaStream hd s.epd.dc_pin (land32 x 0xF8) y
            (windowXEnd s.epd (land32 x 0xF8) (land32 image_width 0xF8))
            (windowYEnd s.epd y image_height)
        ++ pointerStream hd s.epd.dc_pin (land32 x 0xF8) y
        ++ cmd s.epd.dc_pin hd.WRITE_RAM
        ++ (List.range (iadd (isub (windowYEnd s.epd y image_height) y) 1).toNat).flatMap
            (fun (j : Nat) =>
              (List.range (Int.tdiv (iadd (isub
                  (windowXEnd s.epd (land32 x 0xF8) (land32 image_width 0xF8))
                  (land32 x 0xF8)) 1) 8).toNat).flatMap
                (fun (i : Nat) => dat s.epd.dc_pin
                  (buf (iadd (i : Int)
                    (imul (j : Int) (Int.tdiv (land32 image_width 0xF8) 8)))))) := by
  rw [SetFrameMemoryAt_accepted hd buf x y image_width image_height s hx hy hw hh,
    (windowRows_spec _ _ _ _ _ _ _).2]
  simp only [SendCommand_trace, SendCommand_epd, SetMemoryPointer_trace,
    SetMemoryPointer_epd, SetMemoryArea_trace, SetMemoryArea_epd]

theorem SetFrameMemoryAt_rejected (hd : Header) (buf : Int → Byte)
    (x y image_width image_height : Int) (s : World)
    (hrej : x < 0 ∨ image_width < 0 ∨ y < 0 ∨ image_height < 0) :
    SetFrameMemoryAt hd (some buf) x y image_width image_height s = s := by
  unfold SetFrameMemoryAt
  exact if_pos hrej

theorem SetFrameMemoryAt_null (hd : Header)
    (x y image_width image_height : Int) (s : World) :
    SetFrameMemoryAt hd none x y image_width image_height s = s := by
  simp only [SetFrameMemoryAt]

theorem SetFrameMemoryAt_epd (hd : Header) (image_buffer : Option (Int → Byte))
    (x y image_width image_height : Int) (s : World) :
    (SetFrameMemoryAt hd image_buffer x y image_width image_height s).epd = s.epd := by
  cases image_buffer with
  | none => rw [SetFrameMemoryAt_null]
  | some buf =>
    by_cases hrej : x < 0 ∨ image_width < 0 ∨ y < 0 ∨ image_height < 0
    · rw [SetFrameMemoryAt_rejected hd buf x y image_width image_height s hrej]
    · rw [SetFrameMemoryAt_accepted hd buf x y image_width image_height s
        (by omega) (by omega) (by omega) (by omega)]
      simp only [windowRows_epd, SendCommand_epd, SetMemoryPointer_epd, SetMemoryArea_epd]

/-- C5: the windowed `SetFrameMemory` leaves the world as it found it (nothing added to
the trace, no driver field changed) exactly when the buffer is null or one of `x`, `y`,
`image_width`, `image_height` is negative; on every other input the trace grows by the
RAM-window sequence, the RAM-cursor sequence and the `WRITE_RAM` command, followed by the
data bytes. -/
theorem windowed_reject_iff (hd : Header) (image_buffer : Option (Int → Byte))
    (x y image_width image_height : Int) (s : World) :
    (((SetFrameMemoryAt hd image_buffer x y image_width image_height s).trace = s.trace ∧
      (SetFrameMemoryAt hd image_buffer x y image_width image_height s).epd = s.epd)
        ↔ (image_buffer = none ∨ x < 0 ∨ y < 0 ∨ image_width < 0 ∨ image_height < 0)) ∧
    ((image_buffer = none ∨ x < 0 ∨ y < 0 ∨ image_width < 0 ∨ image_height < 0) →
      SetFrameMemoryAt hd image_buffer x y image_width image_height s = s) ∧
    (¬ (image_buffer = none ∨ x < 0 ∨ y < 0 ∨ image_width < 0 ∨ image_height < 0) →
      ∃ x_end y_end data,
        (SetFrameMemoryAt hd image_buffer x y image_width image_height s).trace
          = s.trace ++ areaStream hd s.epd.dc_pin (land32 x 0xF8) y x_end y_end
              ++ pointerStream hd s.epd.dc_pin (land32 x 0xF8) y
              ++ cmd s.epd.dc_pin hd.WRITE_RAM ++ data) := by
  have hrejected : (image_buffer = none ∨ x < 0 ∨ y < 0 ∨ image_width < 0 ∨ image_height < 0) →
      SetFrameMemoryAt hd image_buffer x y image_width image_height s = s := by
    intro h
    cases image_buffer with
    | none => exact SetFrameMemoryAt_null hd x y image_width image_height s
    | some buf =>
      have hrej : x < 0 ∨ image_width < 0 ∨ y < 0 ∨ image_height < 0 := by
        rcases h with h | h | h | h | h
        · cases h
        · exact Or.inl h
        · exact Or.inr (Or.inr (Or.inl h))
        · exact Or.inr (Or.inl h)
        · exact Or.inr (Or.inr (Or.inr h))
      exact SetFrameMemoryAt_rejected hd buf x y image_width image_height s hrej
  have haccepted : ¬ (image_buffer = none ∨ x < 0 ∨ y < 0 ∨ image_width < 0 ∨ image_height < 0) →
      ∃ x_end y_end data,
        (SetFrameMemoryAt hd image_buffer x y image_width image_height s).trace
          = s.trace ++ areaStream hd s.epd.dc_pin (land32 x 0xF8) y x_end y_end
              ++ pointerStream hd s.epd.dc_pin (land32 x 0xF8) y
              ++ cmd s.epd.dc_pin hd.WRITE_RAM ++ data := by
    intro h
    cases image_buffer with
    | none => exact absurd (Or.inl rfl) h
    | some buf =>
      have hx : 0 ≤ x := by
        by_contra hc; exact h (Or.inr (Or.inl (by omega)))
      have hy : 0 ≤ y := by
        by_contra hc; exact h (Or.inr (Or.inr (Or.inl (by omega))))
      have hw : 0 ≤ image_width := by
        by_contra hc; exact h (Or.inr (Or.inr (Or.inr (Or.inl (by omega)))))
      have hh : 0 ≤ image_height := by
        by_contra hc; exact h (Or.inr (Or.inr (Or.inr (Or.inr (by omega)))))
      exact ⟨_, _, _, SetFrameMemoryAt_trace hd buf x y image_width image_height s hx hy hw hh⟩
  refine ⟨⟨?_, ?_⟩, hrejected, haccepted⟩
  · intro h
    by_contra hc
    obtain ⟨x_end, y_end, data, ht⟩ := haccepted hc
    have hlen := congrArg List.length (h.1.symm.trans ht)
    simp [areaStream, pointerStream, cmd, dat] at hlen
  · intro h
    rw [hrejected h]
    exact ⟨rfl, rfl⟩

theorem windowed_reject_iff_witness :
    SetFrameMemoryAt sampleHeader (some (fun _ => 0)) (-1) 0 8 1
        (World.boot sampleHeader 0 (fun _ => Level.LOW))
      = World.boot sampleHeader 0 (fun _ => Level.LOW) ∧
    SetFrameMemoryAt sampleHeader none 0 0 8 1
        (World.boot sampleHeader 0 (fun _ => Level.LOW))
      = World.boot sampleHeader 0 (fun _ => Level.LOW) :=
  ⟨(windowed_reject_iff sampleHeader (some (fun _ => 0)) (-1) 0 8 1
      (World.boot sampleHeader 0 (fun _ => Level.LOW))).2.1 (Or.inr (Or.inl (by decide))),
   (windowed_reject_iff sampleHeader none 0 0 8 1
      (World.boot sampleHeader 0 (fun _ => Level.LOW))).2.1 (Or.inl rfl)⟩

/-! ### Initialisation -/

theorem Init_failure (hd : Header) (s : World) (h : s.ifInitResult ≠ 0) :
    Init hd s = (-1, (IfInit s).2) := by
  simp only [Init, IfInit, h, ne_eq, not_false_eq_true, if_true]

theorem Init_success_result (hd : Header) (s : World) (h : s.ifInitResult = 0) :
    (Init hd s).1 = 0 := by
  simp only [Init, IfInit, h, ne_eq, not_true_eq_false, if_false]

theorem Init_success_trace (hd : Header) (s : World) (h : s.ifInitResult = 0) :
    (Init hd s).2.trace
      = s.trace ++ [Event.IfInit]
        ++ [Event.DigitalWrite s.epd.reset_pin Level.LOW, Event.DelayMs 200,
            Event.DigitalWrite s.epd.reset_pin Level.HIGH, Event.DelayMs 200,
            Event.DigitalWrite s.epd.dc_pin Level.LOW, Event.SpiTransfer hd.SW_RESET,
            Event.DigitalWrite s.epd.dc_pin Level.LOW, Event.SpiTransfer 0x74,
            Event.DigitalWrite s.epd.dc_pin Level.HIGH, Event.SpiTransfer 0x54,
            Event.DigitalWrite s.epd.dc_pin Level.LOW, Event.SpiTransfer 0x7E,
            Event.DigitalWrite s.epd.dc_pin Level.HIGH, Event.SpiTransfer 0x3B,
            Event.DigitalWrite s.epd.dc_pin Level.LOW, Event.SpiTransfer 0x11,
            Event.DigitalWrite s.epd.dc_pin Level.HIGH, Event.SpiTransfer 0x03,
            Event.DigitalWrite s.epd.dc_pin Level.LOW, Event.SpiTransfer 0x3C,
            Event.DigitalWrite s.epd.dc_pin Level.HIGH, Event.SpiTransfer 0x01,
            Event.DigitalWrite s.epd.dc_pin Level.LOW, Event.SpiTransfer 0x2C,
            Event.DigitalWrite s.epd.dc_pin Level.HIGH, Event.SpiTransfer 0x26,
            Event.DigitalWrite s.epd.dc_pin Level.LOW, Event.SpiTransfer 0x03,
            Event.DigitalWrite s.epd.dc_pin Level.HIGH, Event.SpiTransfer 0x17,
            Event.DigitalWrite s.epd.dc_pin Level.LOW, Event.SpiTransfer 0x04,
            Event.DigitalWrite s.epd.dc_pin Level.HIGH, Event.SpiTransfer 0x41,
            Event.DigitalWrite s.epd.dc_pin Level.HIGH, Event.SpiTransfer 0x00,
            Event.DigitalWrite s.epd.dc_pin Level.HIGH, Event.SpiTransfer 0x32] := by
  simp only [Init, IfInit, h, ne_eq, not_true_eq_false, if_false, Reset, SendCommand,
    SendData, DigitalWrite, SpiTransfer, DelayMs, Serial_print, Serial_println,
    List.append_assoc, List.cons_append, List.nil_append]

/-- C6: `Init` returns -1 exactly when the transport initialisation `IfInit` returns a
non-zero value, and then the world it leaves is the one `IfInit` left: nothing is added to
the trace after the `IfInit` call (no reset-line write, no delay, no byte) and nothing is
printed; when `IfInit` returns 0, `Init` returns 0. -/
theorem Init_fails_iff (hd : Header) (s : World) :
    ((Init hd s).1 = -1 ↔ (IfInit s).1 ≠ 0) ∧
    ((IfInit s).1 ≠ 0 →
      (Init hd s).2 = (IfInit s).2 ∧
      (Init hd s).2.trace = s.trace ++ [Event.IfInit] ∧
      (Init hd s).2.console = s.console) ∧
    ((IfInit s).1 = 0 → (Init hd s).1 = 0) := by
  have hr : (IfInit s).1 = s.ifInitResult := by simp only [IfInit]
  rw [hr]
  refine ⟨⟨?_, ?_⟩, ?_, ?_⟩
  · intro h hz
    rw [Init_success_result hd s hz] at h
    exact absurd h (by decide)
  · intro h
    rw [Init_failure hd s h]
  · intro h
    rw [Init_failure hd s h]
    simp only [IfInit, and_self]
  · exact Init_success_result hd s

theorem Init_fails_iff_witness :
    (Init sampleHeader (World.boot sampleHeader 7 (fun _ => Level.LOW))).2.trace
        = [] ++ [Event.IfInit] ∧
    (Init sampleHeader (World.boot sampleHeader 0 (fun _ => Level.LOW))).1 = 0 :=
  ⟨((Init_fails_iff sampleHeader (World.boot sampleHeader 7 (fun _ => Level.LOW))).2.1
      (by decide)).2.1,
   (Init_fails_iff sampleHeader (World.boot sampleHeader 0 (fun _ => Level.LOW))).2.2
      (by decide)⟩

/-- C7: when the transport initialisation succeeds, `Init` appends to the trace, after the
`IfInit` call, exactly: reset line LOW, delay 200 ms, reset line HIGH, delay 200 ms; the
software-reset command with no data; then the groups 0x74 [0x54], 0x7E [0x3B], 0x11
[0x03], 0x3C [0x01], 0x2C [0x26], 0x03 [0x17], 0x04 [0x41, 0x00, 0x32]; every command byte
goes out with the select line LOW and every data byte with it HIGH. -/
theorem Init_stream (hd : Header) (s : World) (h : s.ifInitResult = 0) :
    (Init hd s).2.trace
      = s.trace ++ [Event.IfInit]
        ++ [Event.DigitalWrite s.epd.reset_pin Level.LOW, Event.DelayMs 200,
            Event.DigitalWrite s.epd.reset_pin Level.HIGH, Event.DelayMs 200,
            Event.DigitalWrite s.epd.dc_pin Level.LOW, Event.SpiTransfer hd.SW_RESET,
            Event.DigitalWrite s.epd.dc_pin Level.LOW, Event.SpiTransfer 0x74,
            Event.DigitalWrite s.epd.dc_pin Level.HIGH, Event.SpiTransfer 0x54,
            Event.DigitalWrite s.epd.dc_pin Level.LOW, Event.SpiTransfer 0x7E,
            Event.DigitalWrite s.epd.dc_pin Level.HIGH, Event.SpiTransfer 0x3B,
            Event.DigitalWrite s.epd.dc_pin Level.LOW, Event.SpiTransfer 0x11,
            Event.DigitalWrite s.epd.dc_pin Level.HIGH, Event.SpiTransfer 0x03,
            Event.DigitalWrite s.epd.dc_pin Level.LOW, Event.SpiTransfer 0x3C,
            Event.DigitalWrite s.epd.dc_pin Level.HIGH, Event.SpiTransfer 0x01,
            Event.DigitalWrite s.epd.dc_pin Level.LOW, Event.SpiTransfer 0x2C,
            Event.DigitalWrite s.epd.dc_pin Level.HIGH, Event.SpiTransfer 0x26,
            Event.DigitalWrite s.epd.dc_pin Level.LOW, Event.SpiTransfer 0x03,
            Event.DigitalWrite s.epd.dc_pin Level.HIGH, Event.SpiTransfer 0x17,
            Event.DigitalWrite s.epd.dc_pin Level.LOW, Event.SpiTransfer 0x04,
            Event.DigitalWrite s.epd.dc_pin Level.HIGH, Event.SpiTransfer 0x41,
            Event.DigitalWrite s.epd.dc_pin Level.HIGH, Event.SpiTransfer 0x00,
            Event.DigitalWrite s.epd.dc_pin Level.HIGH, Event.SpiTransfer 0x32] ∧
    (Init hd s).1 = 0 :=
  ⟨Init_success_trace hd s h, Init_success_result hd s h⟩

theorem Init_stream_witness :
    (World.boot sampleHeader 0 (fun _ => Level.LOW)).ifInitResult = 0 ∧
    (Init sampleHeader (World.boot sampleHeader 0 (fun _ => Level.LOW))).1 = 0 :=
  ⟨rfl, (Init_stream sampleHeader (World.boot sampleHeader 0 (fun _ => Level.LOW)) rfl).2⟩

/-! ### Refresh and sleep -/

/-- The method `DisplayFrame` is its fixed command sequence followed by the wait. -/
theorem DisplayFrame_split (s : World) :
    ∃ s', s'.epd = s.epd ∧ s'.polls = s.polls ∧ s'.busy = s.busy ∧
      s'.trace = s.trace ++ displayStream s.epd.dc_pin ∧
      ∀ fuel, DisplayFrame fuel s = (WaitUntilIdle fuel s').map (Serial_println " done.") := by
  refine ⟨SendCommand 0x20 (SendData 0xC7 (SendCommand 0x22 (SendData 0x00 (SendData 0x00
    (SendCommand 0x0f (SendData 0x00 (SendData 0x01 (SendData 0x27 (SendCommand 0x01
    (SendData 0x08 (SendCommand 0x3B (SendData 26 (SendCommand 0x3A
    (Serial_print "Displaying frame" s)))))))))))))), ?_, ?_, ?_, ?_, ?_⟩
  · simp only [SendCommand_epd, SendData_epd, Serial_print_epd]
  · simp only [SendCommand, SendData, DigitalWrite, SpiTransfer, Serial_print]
  · simp only [SendCommand, SendData, DigitalWrite, SpiTransfer, Serial_print]
  · simp only [SendCommand_trace, SendData_trace, SendCommand_epd, SendData_epd,
      Serial_print_epd, Serial_print_trace, displayStream, List.append_assoc]
  · intro fuel
    simp only [DisplayFrame]
    cases WaitUntilIdle fuel _ <;> rfl

/-- C9 fails as stated: on a freshly constructed driver with an idle busy line,
`DisplayFrame` returns, the byte it transferred after the command 0x22 is 0xC7, and not
all six of the bits 0x80, 0x40, 0x20, 0x10, 0x08, 0x04 are set in that byte: 0x20, 0x10 and
0x08 are clear. -/
theorem activate_update_byte_lacks_bits :
    (DisplayFrame 1 (World.boot sampleHeader 0 (fun _ => Level.LOW))).map
        (fun w => byteAfter 0x22 (transfers w.trace)) = some (some 0xC7) ∧
    ¬ (∀ bit ∈ [0x80, 0x40, 0x20, 0x10, 0x08, 0x04], (0xC7 : Byte).val &&& bit = bit) ∧
    (0xC7 : Byte).val &&& 0x20 = 0 ∧ (0xC7 : Byte).val &&& 0x10 = 0 ∧
    (0xC7 : Byte).val &&& 0x08 = 0 := by
  decide

theorem waitStream_succ (busy_pin n : Nat) :
    waitStream busy_pin (n + 1)
      = [Event.DigitalRead busy_pin, Event.DelayMs 100] ++ waitStream busy_pin n := by
  simp only [waitStream, List.replicate_succ, List.flatten_cons, List.append_assoc]

theorem transfers_waitStream (busy_pin n : Nat) : transfers (waitStream busy_pin n) = [] := by
  induction n with
  | zero => rfl
  | succ n ih =>
    rw [waitStream_succ, transfers_append, ih]
    rfl

/-- The wait, on a busy line that reads busy `n` times and then idle: with fuel for more
than `n` reads it returns after the read number `n + 1`; with less it has not returned. -/
theorem WaitUntilIdle_spec (n : Nat) :
    ∀ (s : World), (∀ k, k < n → s.busy (s.polls + k) = Level.HIGH) →
      s.busy (s.polls + n) = Level.LOW →
      (∀ fuel, n < fuel →
        ∃ w, WaitUntilIdle fuel s = some w ∧
          w.trace = s.trace ++ waitStream s.epd.busy_pin n ∧
          w.polls = s.polls + n + 1 ∧ w.epd = s.epd ∧ w.busy = s.busy) ∧
      (∀ fuel, fuel ≤ n → WaitUntilIdle fuel s = none) := by
  induction n with
  | zero =>
    intro s _ hlow
    refine ⟨?_, ?_⟩
    · intro fuel hf
      obtain ⟨f, rfl⟩ : ∃ f, fuel = f + 1 := ⟨fuel - 1, by omega⟩
      have hl : s.busy s.polls = Level.LOW := by simpa using hlow
      refine ⟨(DigitalRead s.epd.busy_pin s).2, ?_, ?_, ?_, ?_, ?_⟩
      · simp [WaitUntilIdle, DigitalRead, hl]
      · simp [DigitalRead, waitStream]
      · simp [DigitalRead]
      · simp [DigitalRead]
      · simp [DigitalRead]
    · intro fuel hf
      have : fuel = 0 := by omega
      subst this
      rfl
  | succ n ih =>
    intro s hhigh hlow
    have h0 : s.busy s.polls = Level.HIGH := by simpa using hhigh 0 (by omega)
    have hstep : ∀ f, WaitUntilIdle (f + 1) s
        = WaitUntilIdle f (Serial_print "." (DelayMs 100 (DigitalRead s.epd.busy_pin s).2)) := by
      intro f
      simp [WaitUntilIdle, DigitalRead, h0]
    obtain ⟨ih1, ih2⟩ := ih (Serial_print "." (DelayMs 100 (DigitalRead s.epd.busy_pin s).2))
      (by
        intro k hk
        have := hhigh (k + 1) (by omega)
        simpa [Serial_print, DelayMs, DigitalRead, add_assoc, add_comm 1 k] using this)
      (by
        simpa [Serial_print, DelayMs, DigitalRead, add_assoc, add_comm 1 n] using hlow)
    refine ⟨?_, ?_⟩
    · intro fuel hf
      obtain ⟨f, rfl⟩ : ∃ f, fuel = f + 1 := ⟨fuel - 1, by omega⟩
      obtain ⟨w, hw, ht, hp, he, hb⟩ := ih1 f (by omega)
      refine ⟨w, ?_, ?_, ?_, ?_, ?_⟩
      · rw [hstep, hw]
      · rw [ht, waitStream_succ]
        simp [Serial_print, DelayMs, DigitalRead]
      · rw [hp]
        simp [Serial_print, DelayMs, DigitalRead]
        omega
      · rw [he]
        simp [Serial_print, DelayMs, DigitalRead]
      · rw [hb]
        simp [Serial_print, DelayMs, DigitalRead]
    · intro fuel hf
      cases fuel with
      | zero => rfl
      | succ f => rw [hstep]; exact ih2 f (by omega)
theorem waitStream_counts (busy_pin n : Nat) :
    (waitStream busy_pin n).count (Event.DigitalRead busy_pin) = n + 1 ∧
    (waitStream busy_pin n).count (Event.DelayMs 100) = n := by
  induction n with
  | zero => simp [waitStream]
  | succ n ih =>
    rw [waitStream_succ, List.count_append, List.count_append, ih.1, ih.2]
    simp
    omega

theorem DisplayFrame_waits (s : World) (n : Nat)
    (hhigh : ∀ k, k < n → s.busy (s.polls + k) = Level.HIGH)
    (hlow : s.busy (s.polls + n) = Level.LOW) :
    (∀ fuel, n < fuel →
      ∃ w, DisplayFrame fuel s = some w ∧
        w.trace = s.trace ++ displayStream s.epd.dc_pin ++ waitStream s.epd.busy_pin n ∧
        w.polls = s.polls + n + 1 ∧ w.epd = s.epd ∧ w.busy = s.busy) ∧
    (∀ fuel, fuel ≤ n → DisplayFrame fuel s = none) := by
  obtain ⟨s', he, hp, hb, ht, hf⟩ := DisplayFrame_split s
  obtain ⟨h1, h2⟩ := WaitUntilIdle_spec n s' (by rw [hp, hb]; exact hhigh)
    (by rw [hp, hb]; exact hlow)
  refine ⟨?_, ?_⟩
  · intro fuel hfuel
    obtain ⟨w, hw, hwt, hwp, hwe, hwb⟩ := h1 fuel hfuel
    refine ⟨Serial_println " done." w, ?_, ?_, ?_, ?_, ?_⟩
    · rw [hf, hw]; rfl
    · rw [Serial_println_trace, hwt, ht, he]
    · simp only [Serial_println]; rw [hwp, hp]
    · rw [Serial_println_epd, hwe, he]
    · simp only [Serial_println]; rw [hwb, hb]
  · intro fuel hfuel
    rw [hf, h2 fuel hfuel]; rfl

theorem Sleep_waits (hd : Header) (s : World) (n : Nat)
    (hhigh : ∀ k, k < n → s.busy (s.polls + k) = Level.HIGH)
    (hlow : s.busy (s.polls + n) = Level.LOW) :
    (∀ fuel, n < fuel →
      ∃ w, Sleep hd fuel s = some w ∧
        w.trace = s.trace ++ cmd s.epd.dc_pin hd.DEEP_SLEEP_MODE
          ++ waitStream s.epd.busy_pin n ∧
        w.polls = s.polls + n + 1 ∧ w.epd = s.epd ∧ w.busy = s.busy) ∧
    (∀ fuel, fuel ≤ n → Sleep hd fuel s = none) := by
  have hp : (SendCommand hd.DEEP_SLEEP_MODE s).polls = s.polls := by
    simp only [SendCommand, DigitalWrite, SpiTransfer]
  have hb : (SendCommand hd.DEEP_SLEEP_MODE s).busy = s.busy := by
    simp only [SendCommand, DigitalWrite, SpiTransfer]
  obtain ⟨h1, h2⟩ := WaitUntilIdle_spec n (SendCommand hd.DEEP_SLEEP_MODE s)
    (by rw [hp, hb]; exact hhigh) (by rw [hp, hb]; exact hlow)
  refine ⟨?_, ?_⟩
  · intro fuel hfuel
    obtain ⟨w, hw, hwt, hwp, hwe, hwb⟩ := h1 fuel hfuel
    refine ⟨w, ?_, ?_, ?_, ?_, ?_⟩
    · simp only [Sleep]; exact hw
    · rw [hwt, SendCommand_trace, SendCommand_epd]
    · rw [hwp, hp]
    · rw [hwe, SendCommand_epd]
    · rw [hwb, hb]
  · intro fuel hfuel
    simp only [Sleep]; exact h2 fuel hfuel

/-- C10: let the busy line read busy `n` times and then idle.  `DisplayFrame`, after its
last command byte 0x20, and `Sleep`, after its only transfer `DEEP_SLEEP_MODE`, each make
exactly `n + 1` reads of the busy line with `n` delays of 100 ms between them, transfer no
byte while waiting, and return right after the first idle reading: given fuel for more
than `n` reads they return, given less they have not returned.  Run back to back, with the
line busy `m` more times after `DisplayFrame` has returned, `Sleep` makes its own `m + 1`
reads. -/
theorem refresh_and_sleep_wait (hd : Header) (s : World) (n : Nat)
    (hhigh : ∀ k, k < n → s.busy (s.polls + k) = Level.HIGH)
    (hlow : s.busy (s.polls + n) = Level.LOW) :
    (∀ fuel, n < fuel →
      ∃ w, DisplayFrame fuel s = some w ∧
        w.trace = s.trace ++ displayStream s.epd.dc_pin ++ waitStream s.epd.busy_pin n ∧
        w.polls = s.polls + n + 1) ∧
    (∀ fuel, fuel ≤ n → DisplayFrame fuel s = none) ∧
    (∀ fuel, n < fuel →
      ∃ w, Sleep hd fuel s = some w ∧
        w.trace = s.trace ++ cmd s.epd.dc_pin hd.DEEP_SLEEP_MODE
          ++ waitStream s.epd.busy_pin n ∧
        w.polls = s.polls + n + 1) ∧
    (∀ fuel, fuel ≤ n → Sleep hd fuel s = none) ∧
    (∃ pre, displayStream s.epd.dc_pin = pre ++ cmd s.epd.dc_pin 0x20) ∧
    transfers (waitStream s.epd.busy_pin n) = [] ∧
    (waitStream s.epd.busy_pin n).count (Event.DigitalRead s.epd.busy_pin) = n + 1 ∧
    (waitStream s.epd.busy_pin n).count (Event.DelayMs 100) = n ∧
    (waitStream s.epd.busy_pin n).getLast? = some (Event.DigitalRead s.epd.busy_pin) ∧
    (∀ m, (∀ k, k < m → s.busy (s.polls + n + 1 + k) = Level.HIGH) →
      s.busy (s.polls + n + 1 + m) = Level.LOW →
      ∀ fuel₁ fuel₂, n < fuel₁ → m < fuel₂ →
        ∃ w₁ w₂, DisplayFrame fuel₁ s = some w₁ ∧ Sleep hd fuel₂ w₁ = some w₂ ∧
          w₂.trace = s.trace ++ displayStream s.epd.dc_pin ++ waitStream s.epd.busy_pin n
            ++ cmd s.epd.dc_pin hd.DEEP_SLEEP_MODE ++ waitStream s.epd.busy_pin m ∧
          w₂.polls = s.polls + (n + 1) + (m + 1)) := by
  obtain ⟨d1, d2⟩ := DisplayFrame_waits s n hhigh hlow
  obtain ⟨s1, s2⟩ := Sleep_waits hd s n hhigh hlow
  refine ⟨?_, d2, ?_, s2, ?_, transfers_waitStream _ _, (waitStream_counts _ _).1,
    (waitStream_counts _ _).2, ?_, ?_⟩
  · intro fuel hf
    obtain ⟨w, hw, ht, hp, _, _⟩ := d1 fuel hf
    exact ⟨w, hw, ht, hp⟩
  · intro fuel hf
    obtain ⟨w, hw, ht, hp, _, _⟩ := s1 fuel hf
    exact ⟨w, hw, ht, hp⟩
  · exact ⟨_, rfl⟩
  · simp [waitStream]
  · intro m hmhigh hmlow fuel₁ fuel₂ hf₁ hf₂
    obtain ⟨w₁, hw₁, ht₁, hp₁, he₁, hb₁⟩ := d1 fuel₁ hf₁
    obtain ⟨t1, _⟩ := Sleep_waits hd w₁ m (by rw [hp₁, hb₁]; exact hmhigh)
      (by rw [hp₁, hb₁]; exact hmlow)
    obtain ⟨w₂, hw₂, ht₂, hp₂, _, _⟩ := t1 fuel₂ hf₂
    refine ⟨w₁, w₂, hw₁, hw₂, ?_, ?_⟩
    · rw [ht₂, ht₁, he₁]
    · rw [hp₂, hp₁]; omega

theorem refresh_and_sleep_wait_witness :
    ∃ w, DisplayFrame 3
        (World.boot sampleHeader 0 (fun k => if k < 2 then Level.HIGH else Level.LOW))
          = some w ∧
      w.trace = [] ++ displayStream 17 ++ waitStream 4 2 ∧ w.polls = 0 + 2 + 1 :=
  (refresh_and_sleep_wait sampleHeader
    (World.boot sampleHeader 0 (fun k => if k < 2 then Level.HIGH else Level.LOW)) 2
    (by intro k hk; simp [World.boot, hk])
    (by simp [World.boot])).1 3 (by decide)

/-! ### The alignment mask at 256 and above -/

/-- C3 does not hold on the code: the mask `& 0xF8` aligns down to a multiple of 8 only
below 256.  At 256 it gives 0 and at 264 it gives 8, where aligning down gives 256 and 264.
On a freshly constructed driver, a one-row write of `image_width = 256` at the origin
programs `x_end = -1` (end byte column 0xFF) and sends no data byte, while the same write
with `image_width = 248` is clipped to the panel and sends 16 data bytes; and a one-row,
8-pixel write at `x = 256`, which lies off the 128-pixel panel, is sent to byte column 0. -/
theorem align_mask_wraps_at_256 :
    land32 256 0xF8 = 0 ∧ (256 : Int) - 256 % 8 = 256 ∧
    land32 264 0xF8 = 8 ∧ (264 : Int) - 264 % 8 = 264 ∧
    transfers (SetFrameMemoryAt sampleHeader (some (fun _ => 0xFF)) 0 0 256 1
        (World.boot sampleHeader 0 (fun _ => Level.LOW))).trace
      = [0x44, 0, 0xFF, 0x45, 0, 0, 0, 0, 0x4E, 0, 0x4F, 0, 0, 0x24] ∧
    transfers (SetFrameMemoryAt sampleHeader (some (fun _ => 0xFF)) 0 0 248 1
        (World.boot sampleHeader 0 (fun _ => Level.LOW))).trace
      = [0x44, 0, 15, 0x45, 0, 0, 0, 0, 0x4E, 0, 0x4F, 0, 0, 0x24]
          ++ List.replicate 16 0xFF ∧
    transfers (SetFrameMemoryAt sampleHeader (some (fun _ => 0xFF)) 256 0 8 1
        (World.boot sampleHeader 0 (fun _ => Level.LOW))).trace
      = [0x44, 0, 0, 0x45, 0, 0, 0, 0, 0x4E, 0, 0x4F, 0, 0, 0x24, 0xFF] := by
  decide

/-- C4 does not hold on the code for a requested width of 256 or more: the row stride is
taken from the masked width.  A two-row write of `image_width = 264` at the origin of a
freshly constructed driver reads `image_buffer[0]` and then `image_buffer[1]`, the second
row at stride `(264 & 0xF8) / 8 = 1`, where the requested width divided by 8 gives the
index `0 + 1 * (264 / 8) = 33`. -/
theorem stride_uses_masked_width :
    (SetFrameMemoryAt sampleHeader (some (fun i => toUChar i)) 0 0 264 2
        (World.boot sampleHeader 0 (fun _ => Level.LOW))).reads
      = [Read.image 0, Read.image 1] ∧
    transfers (SetFrameMemoryAt sampleHeader (some (fun i => toUChar i)) 0 0 264 2
        (World.boot sampleHeader 0 (fun _ => Level.LOW))).trace
      = [0x44, 0, 0, 0x45, 0, 0, 1, 0, 0x4E, 0, 0x4F, 0, 0, 0x24, 0, 1] ∧
    Int.tdiv (land32 264 0xF8) 8 = 1 ∧
    (0 : Int) + 1 * (264 / 8) = 33 := by
  decide

/-! ### The windowed write in exact arithmetic -/

theorem windowXEnd_exact (e : Epd) (xa wa : Int)
    (hxa : 0 ≤ xa) (hxa' : xa ≤ 248) (hwa : 0 ≤ wa) (hwa' : wa ≤ 248)
    (hW : 0 < e.width) (hW' : e.width < 2147483648) :
    windowXEnd e xa wa = if xa + wa ≥ e.width then e.width - 1 else xa + wa - 1 := by
  unfold windowXEnd iadd isub wrap32
  split <;> split <;> omega

theorem windowYEnd_exact (e : Epd) (y image_height : Int)
    (hy : 0 ≤ y) (hh : 0 ≤ image_height) (hsum : y + image_height < 2147483648)
    (hH : 0 < e.height) (hH' : e.height < 2147483648) :
    windowYEnd e y image_height
      = if y + image_height ≥ e.height then e.height - 1 else y + image_height - 1 := by
  unfold windowYEnd iadd isub wrap32
  split <;> split <;> omega

theorem tdiv_eight_nonpos (a : Int) (h : a ≤ 0) : Int.tdiv a 8 ≤ 0 := by
  have h1 : Int.tdiv (-(-a)) 8 = -(Int.tdiv (-a) 8) := Int.neg_tdiv _ _
  rw [neg_neg] at h1
  have h2 := Int.tdiv_nonneg (a := -a) (b := 8) (by omega) (by decide)
  omega

theorem tdiv_eight_le (a : Int) (h : a ≤ 248) : Int.tdiv a 8 ≤ 31 := by
  by_cases hneg : 0 ≤ a
  · rw [Int.tdiv_eq_ediv hneg (by decide)]
    omega
  · exact le_trans (tdiv_eight_nonpos a (by omega)) (by decide)

theorem span_exact (a b : Int) (ha : -1 ≤ a) (ha' : a < 2147483647)
    (hb : 0 ≤ b) (hb' : b < 2147483648) : iadd (isub a b) 1 = a - b + 1 := by
  unfold iadd isub wrap32
  omega

theorem index_exact (i j stride : Int) (hi : 0 ≤ i) (hi' : i < 31)
    (hj : 0 ≤ j) (hj' : j < 67108864) (hs : 0 ≤ stride) (hs' : stride ≤ 31) :
    iadd i (imul j stride) = i + j * stride := by
  have hp0 : 0 ≤ j * stride := Int.mul_nonneg hj hs
  have hp1 : j * stride ≤ j * 31 := Int.mul_le_mul_of_nonneg_left hs' hj
  have hmul : imul j stride = j * stride := by
    unfold imul
    apply wrap32_of_range <;> omega
  rw [hmul]
  unfold iadd
  apply wrap32_of_range <;> omega
/-- The data loops in exact arithmetic, for any window whose spans and stride are in
range. -/
theorem rows_exact (dc : Nat) (buf : Int → Byte) (xa y wa xe ye : Int)
    (hy : 0 ≤ y) (hy' : y < 2147483648) (hxa0 : 0 ≤ xa) (hxa1 : xa ≤ 248)
    (hwa0 : 0 ≤ wa) (hwa1 : wa ≤ 248)
    (hxe0 : -1 ≤ xe) (hxe1 : xe < 2147483647) (hspan : xe - xa + 1 ≤ wa)
    (hye0 : -1 ≤ ye) (hye1 : ye < 2147483647) (hye2 : ye - y + 1 ≤ 67108864) :
    (List.range (iadd (isub ye y) 1).toNat).flatMap (fun (j : Nat) =>
        (List.range (Int.tdiv (iadd (isub xe xa) 1) 8).toNat).flatMap (fun (i : Nat) =>
          dat dc (buf (iadd (i : Int) (imul (j : Int) (Int.tdiv wa 8))))))
      = (List.range (ye - y + 1).toNat).flatMap (fun (j : Nat) =>
        (List.range (Int.tdiv (xe - xa + 1) 8).toNat).flatMap (fun (i : Nat) =>
          dat dc (buf ((i : Int) + (j : Int) * (wa / 8))))) := by
  have hrows : iadd (isub ye y) 1 = ye - y + 1 := span_exact ye y hye0 hye1 hy hy'
  have hcols : iadd (isub xe xa) 1 = xe - xa + 1 := span_exact xe xa hxe0 hxe1 hxa0 (by omega)
  have hstride : Int.tdiv wa 8 = wa / 8 := Int.tdiv_eq_ediv hwa0 (by decide)
  have hcolsdiv : Int.tdiv (xe - xa + 1) 8 ≤ 31 := tdiv_eight_le _ (le_trans hspan hwa1)
  rw [hrows, hcols, hstride]
  apply List.flatMap_congr
  intro j hj
  apply List.flatMap_congr
  intro i hi
  rw [List.mem_range] at hi hj
  rw [index_exact (i : Int) (j : Int) (wa / 8) (by omega) (by omega) (by omega) (by omega)
    (by omega) (by omega)]

/-- The data stream of an accepted windowed write in exact arithmetic: on a panel of
height at most 2^26 no operation of the data loops overflows.  Row `j` of the window
takes the bytes at `i + j * (w / 8)`, `w` being the masked `image_width`. -/
theorem SetFrameMemoryAt_trace_exact (hd : Header) (buf : Int → Byte)
    (x y image_width image_height : Int) (s : World)
    (hx : 0 ≤ x) (hx' : x < 2147483648) (hy : 0 ≤ y)
    (hw : 0 ≤ image_width) (hw' : image_width < 2147483648) (hh : 0 ≤ image_height)
    (hsum : y + image_height < 2147483648)
    (hW : 0 < s.epd.width) (hW' : s.epd.width < 2147483648)
    (hH : 0 < s.epd.height) (hH' : s.epd.height ≤ 67108864) :
    (SetFrameMemoryAt hd (some buf) x y image_width image_height s).trace
      = s.trace
        ++ areaStream hd s.epd.dc_pin (land32 x 0xF8) y
            (windowXEnd s.epd (land32 x 0xF8) (land32 image_width 0xF8))
            (windowYEnd s.epd y image_height)
        ++ pointerStream hd s.epd.dc_pin (land32 x 0xF8) y
        ++ cmd s.epd.dc_pin hd.WRITE_RAM
        ++ (List.range (windowYEnd s.epd y image_height - y + 1).toNat).flatMap
            (fun (j : Nat) =>
              (List.range (Int.tdiv
                  (windowXEnd s.epd (land32 x 0xF8) (land32 image_width 0xF8)
                    - land32 x 0xF8 + 1) 8).toNat).flatMap
                (fun (i : Nat) => dat s.epd.dc_pin
                  (buf ((i : Int) + (j : Int) * (land32 image_width 0xF8 / 8))))) := by
  have hxa := land32_248 x hx hx'
  have hwa := land32_248 image_width hw hw'
  have hxa0 : 0 ≤ land32 x 0xF8 := by omega
  have hxa1 : land32 x 0xF8 ≤ 248 := by omega
  have hwa0 : 0 ≤ land32 image_width 0xF8 := by omega
  have hwa1 : land32 image_width 0xF8 ≤ 248 := by omega
  have hxe := windowXEnd_exact s.epd (land32 x 0xF8) (land32 image_width 0xF8)
    hxa0 hxa1 hwa0 hwa1 hW hW'
  have hye := windowYEnd_exact s.epd y image_height hy hh hsum hH (by omega)
  have hxe0 : -1 ≤ windowXEnd s.epd (land32 x 0xF8) (land32 image_width 0xF8) := by
    rw [hxe]; split <;> omega
  have hxe1 : windowXEnd s.epd (land32 x 0xF8) (land32 image_width 0xF8) < 2147483647 := by
    rw [hxe]; split <;> omega
  have hspan : windowXEnd s.epd (land32 x 0xF8) (land32 image_width 0xF8)
      - land32 x 0xF8 + 1 ≤ land32 image_width 0xF8 := by
    rw [hxe]; split <;> omega
  have hye0 : -1 ≤ windowYEnd s.epd y image_height := by
    rw [hye]; split <;> omega
  have hye1 : windowYEnd s.epd y image_height < 2147483647 := by
    rw [hye]; split <;> omega
  have hye2 : windowYEnd s.epd y image_height - y + 1 ≤ 67108864 := by
    rw [hye]; split <;> omega
  rw [SetFrameMemoryAt_trace hd buf x y image_width image_height s hx hy hw hh,
    rows_exact s.epd.dc_pin buf (land32 x 0xF8) y (land32 image_width 0xF8) _ _
      hy (by omega) hxa0 hxa1 hwa0 hwa1 hxe0 hxe1 hspan hye0 hye1 hye2]

/-- Below 256 the masked width and the requested width give the same row stride. -/
theorem masked_stride_small (image_width : Int) (hw : 0 ≤ image_width)
    (hw' : image_width < 256) : land32 image_width 0xF8 / 8 = image_width / 8 := by
  rw [land32_248 image_width hw (by omega)]
  omega

/-! ### Alignment of the window origin and width -/

/-- C11: for every `x` and `image_width` the windowed write accepts (non-negative `int`s),
the values it goes on to use for the RAM window and cursor, `x & 0xF8` and
`image_width & 0xF8`, are multiples of 8; these are the values handed to `SetMemoryArea`
and `SetMemoryPointer`. -/
theorem aligned_values_mod_eight (hd : Header) (buf : Int → Byte)
    (x y image_width image_height : Int) (s : World)
    (hx : 0 ≤ x) (hx' : x < 2147483648) (hy : 0 ≤ y)
    (hw : 0 ≤ image_width) (hw' : image_width < 2147483648) (hh : 0 ≤ image_height) :
    land32 x 0xF8 % 8 = 0 ∧ land32 image_width 0xF8 % 8 = 0 ∧
    SetFrameMemoryAt hd (some buf) x y image_width image_height s
      = windowRows buf (land32 x 0xF8) y (land32 image_width 0xF8)
          (windowXEnd s.epd (land32 x 0xF8) (land32 image_width 0xF8))
          (windowYEnd s.epd y image_height)
          (SendCommand hd.WRITE_RAM (SetMemoryPointer hd (land32 x 0xF8) y
            (SetMemoryArea hd (land32 x 0xF8) y
              (windowXEnd s.epd (land32 x 0xF8) (land32 image_width 0xF8))
              (windowYEnd s.epd y image_height) s))) := by
  have hxa := land32_248 x hx hx'
  have hwa := land32_248 image_width hw hw'
  refine ⟨?_, ?_,
    SetFrameMemoryAt_accepted hd buf x y image_width image_height s hx hy hw hh⟩
  · rw [hxa]; omega
  · rw [hwa]; omega

theorem aligned_values_mod_eight_witness :
    land32 300 0xF8 % 8 = 0 ∧ land32 13 0xF8 % 8 = 0 :=
  ⟨(aligned_values_mod_eight sampleHeader (fun _ => 0) 300 0 13 1
      (World.boot sampleHeader 0 (fun _ => Level.LOW))
      (by decide) (by decide) (by decide) (by decide) (by decide) (by decide)).1,
   (aligned_values_mod_eight sampleHeader (fun _ => 0) 300 0 13 1
      (World.boot sampleHeader 0 (fun _ => Level.LOW))
      (by decide) (by decide) (by decide) (by decide) (by decide) (by decide)).2.1⟩

/-! ### The window of `x = 5`, `image_width = 10` -/

theorem wrap32_lt (z : Int) : wrap32 z < 2147483648 := by
  unfold wrap32; omega

theorem index_stride_one (j : Int) (hj0 : 0 ≤ j) (hj1 : j < 2147483648) :
    iadd 0 (imul j (Int.tdiv 8 8)) = j := by
  have h1 : Int.tdiv 8 8 = 1 := by decide
  rw [h1]
  unfold iadd imul wrap32
  omega

/-- C12: on the 128-wide panel a windowed write with `x = 5` and `image_width = 10` (any
buffer, any `y ≥ 0`, any `image_height ≥ 1`) aligns to `x = 0` and `image_width = 8`,
computes `x_end = 7`, programs the RAM X window with start byte column 0 and end byte
column 0, puts the X cursor at byte column 0, and streams one data byte per row: row `j`
is the single byte `image_buffer[j]`. -/
theorem window_x5_w10 (hd : Header) (buf : Int → Byte) (y image_height : Int) (s : World)
    (hW : s.epd.width = 128) (hy : 0 ≤ y) (hh : 1 ≤ image_height) :
    land32 5 0xF8 = 0 ∧ land32 10 0xF8 = 8 ∧
    windowXEnd s.epd (land32 5 0xF8) (land32 10 0xF8) = 7 ∧
    (SetFrameMemoryAt hd (some buf) 5 y 10 image_height s).trace
      = s.trace
        ++ (cmd s.epd.dc_pin hd.SET_RAM_X_ADDRESS_START_END_POSITION
          ++ dat s.epd.dc_pin 0 ++ dat s.epd.dc_pin 0
          ++ cmd s.epd.dc_pin hd.SET_RAM_Y_ADDRESS_START_END_POSITION
          ++ dat s.epd.dc_pin (toUChar (y % 256)) ++ dat s.epd.dc_pin (toUChar (y / 256))
          ++ dat s.epd.dc_pin (toUChar (windowYEnd s.epd y image_height % 256))
          ++ dat s.epd.dc_pin (toUChar (windowYEnd s.epd y image_height / 256)))
        ++ (cmd s.epd.dc_pin hd.SET_RAM_X_ADDRESS_COUNTER ++ dat s.epd.dc_pin 0
          ++ cmd s.epd.dc_pin hd.SET_RAM_Y_ADDRESS_COUNTER
          ++ dat s.epd.dc_pin (toUChar (y % 256)) ++ dat s.epd.dc_pin (toUChar (y / 256)))
        ++ cmd s.epd.dc_pin hd.WRITE_RAM
        ++ (List.range (iadd (isub (windowYEnd s.epd y image_height) y) 1).toNat).flatMap
            (fun (j : Nat) => dat s.epd.dc_pin (buf (j : Int))) := by
  have h5 : land32 5 0xF8 = 0 := by decide
  have h10 : land32 10 0xF8 = 8 := by decide
  have hxe : windowXEnd s.epd 0 8 = 7 := by
    unfold windowXEnd
    rw [hW]
    decide
  have hcols : (Int.tdiv (iadd (isub 7 0) 1) 8).toNat = 1 := by decide
  have hb0 : toUChar (0 / 8) = 0 := by decide
  have hb7 : toUChar (7 / 8) = 0 := by decide
  refine ⟨h5, h10, by rw [h5, h10, hxe], ?_⟩
  have hdata : (List.range (iadd (isub (windowYEnd s.epd y image_height) y) 1).toNat).flatMap
      (fun (j : Nat) => (List.range 1).flatMap (fun (i : Nat) => dat s.epd.dc_pin
        (buf (iadd (i : Int) (imul (j : Int) (Int.tdiv 8 8))))))
      = (List.range (iadd (isub (windowYEnd s.epd y image_height) y) 1).toNat).flatMap
        (fun (j : Nat) => dat s.epd.dc_pin (buf (j : Int))) := by
    apply List.flatMap_congr
    intro j hj
    rw [List.mem_range] at hj
    have hlt := wrap32_lt (isub (windowYEnd s.epd y image_height) y + 1)
    have hj1 : (j : Int) < 2147483648 := by
      have : iadd (isub (windowYEnd s.epd y image_height) y) 1
          = wrap32 (isub (windowYEnd s.epd y image_height) y + 1) := rfl
      rw [this] at hj
      omega
    have hr1 : List.range 1 = [0] := by decide
    simp only [hr1, List.flatMap_cons, List.flatMap_nil, List.append_nil]
    rw [show ((0 : Nat) : Int) = 0 from rfl, index_stride_one (j : Int) (by omega) hj1]
  rw [SetFrameMemoryAt_trace hd buf 5 y 10 image_height s (by decide) hy (by decide)
    (by omega), h5, h10, hxe, hcols, hdata]
  simp only [areaStream, pointerStream, hb0, hb7, List.append_assoc]

theorem window_x5_w10_witness :
    windowXEnd (World.boot sampleHeader 0 (fun _ => Level.LOW)).epd
      (land32 5 0xF8) (land32 10 0xF8) = 7 :=
  (window_x5_w10 sampleHeader (fun _ => 0) 0 1
    (World.boot sampleHeader 0 (fun _ => Level.LOW)) rfl (by decide) (by decide)).2.2.1

/-! ### A full-frame write does not depend on earlier operations -/

theorem emitted_eq (f : World → World) (s : World) (d : List Event)
    (h : (f s).trace = s.trace ++ d) : emitted f s = d := by
  unfold emitted
  rw [h, List.drop_left]

theorem SetFrameMemory_epd (hd : Header) (image_buffer : Int → Byte) (s : World) :
    (SetFrameMemory hd image_buffer s).epd = { s.epd with lut := some lut_full_update } := by
  unfold SetFrameMemory
  rw [Serial_println_epd, imageLoop_epd, SendCommand_epd, SetMemoryPointer_epd,
    SetMemoryArea_epd, Serial_print_epd, SetLut_epd]

theorem ClearFrameMemory_epd (hd : Header) (color : Byte) (s : World) :
    (ClearFrameMemory hd color s).epd = { s.epd with lut := some lut_full_update } := by
  unfold ClearFrameMemory
  rw [Serial_println_epd, colorLoop_epd, SendCommand_epd, SetMemoryPointer_epd,
    SetMemoryArea_epd, Serial_print_epd, SetLut_epd]

/-- The stream of a full-frame write from any world with the panel's geometry. -/
theorem SetFrameMemory_emitted (hd : Header) (image_buffer : Int → Byte) (s : World)
    (hw : s.epd.width = EPD_WIDTH) (hh : s.epd.height = EPD_HEIGHT) :
    emitted (SetFrameMemory hd image_buffer) s
      = lutStream s.epd.dc_pin hd.WRITE_LUT_REGISTER lut_full_update
          ++ areaStream hd s.epd.dc_pin 0 0 (EPD_WIDTH - 1) (EPD_HEIGHT - 1)
          ++ pointerStream hd s.epd.dc_pin 0 0
          ++ cmd s.epd.dc_pin hd.WRITE_RAM
          ++ (List.range 4736).flatMap
              (fun (k : Nat) => dat s.epd.dc_pin (image_buffer (k : Int))) := by
  apply emitted_eq
  rw [SetFrameMemory_trace hd image_buffer s hw hh]
  simp only [List.append_assoc]

/-- C13: the stream `SetFrameMemory(B)` emits after the sequence `SetFrameMemory(B)`;
`ClearFrameMemory(0x00)` on a freshly constructed driver is the stream it emits directly on
a freshly constructed driver, for every buffer `B` (the all-0xFF buffer among them) and
whatever the transport result and busy line of the two runs are; both are the stream fixed
by the buffer, the panel geometry and the header constants alone. -/
theorem full_frame_write_is_stateless (hd : Header) (B : Int → Byte)
    (r r' : Int) (busy busy' : Nat → Level) :
    emitted (SetFrameMemory hd B)
        (ClearFrameMemory hd 0x00 (SetFrameMemory hd B (World.boot hd r busy)))
      = emitted (SetFrameMemory hd B) (World.boot hd r' busy') ∧
    emitted (SetFrameMemory hd B) (World.boot hd r' busy')
      = lutStream hd.DC_PIN hd.WRITE_LUT_REGISTER lut_full_update
          ++ areaStream hd hd.DC_PIN 0 0 (EPD_WIDTH - 1) (EPD_HEIGHT - 1)
          ++ pointerStream hd hd.DC_PIN 0 0
          ++ cmd hd.DC_PIN hd.WRITE_RAM
          ++ (List.range 4736).flatMap (fun (k : Nat) => dat hd.DC_PIN (B (k : Int))) ∧
    emitted (SetFrameMemory hd (fun _ => 0xFF))
        (ClearFrameMemory hd 0x00
          (SetFrameMemory hd (fun _ => 0xFF) (World.boot hd r busy)))
      = emitted (SetFrameMemory hd (fun _ => 0xFF)) (World.boot hd r' busy') := by
  have hfresh : ∀ (C : Int → Byte) (q : Int) (b : Nat → Level),
      emitted (SetFrameMemory hd C) (World.boot hd q b)
        = lutStream hd.DC_PIN hd.WRITE_LUT_REGISTER lut_full_update
          ++ areaStream hd hd.DC_PIN 0 0 (EPD_WIDTH - 1) (EPD_HEIGHT - 1)
          ++ pointerStream hd hd.DC_PIN 0 0
          ++ cmd hd.DC_PIN hd.WRITE_RAM
          ++ (List.range 4736).flatMap (fun (k : Nat) => dat hd.DC_PIN (C (k : Int))) := by
    intro C q b
    exact SetFrameMemory_emitted hd C (World.boot hd q b) rfl rfl
  have hafter : ∀ (C : Int → Byte),
      emitted (SetFrameMemory hd C)
          (ClearFrameMemory hd 0x00 (SetFrameMemory hd C (World.boot hd r busy)))
        = lutStream hd.DC_PIN hd.WRITE_LUT_REGISTER lut_full_update
          ++ areaStream hd hd.DC_PIN 0 0 (EPD_WIDTH - 1) (EPD_HEIGHT - 1)
          ++ pointerStream hd hd.DC_PIN 0 0
          ++ cmd hd.DC_PIN hd.WRITE_RAM
          ++ (List.range 4736).flatMap (fun (k : Nat) => dat hd.DC_PIN (C (k : Int))) := by
    intro C
    have he : (ClearFrameMemory hd 0x00 (SetFrameMemory hd C (World.boot hd r busy))).epd
        = { (Epd.new hd) with lut := some lut_full_update } := by
      rw [ClearFrameMemory_epd, SetFrameMemory_epd]
      rfl
    have h := SetFrameMemory_emitted hd C
      (ClearFrameMemory hd 0x00 (SetFrameMemory hd C (World.boot hd r busy)))
      (by rw [he]; rfl) (by rw [he]; rfl)
    rw [he] at h
    exact h
  refine ⟨?_, hfresh B r' busy', ?_⟩
  · rw [hafter B, hfresh B r' busy']
  · rw [hafter (fun _ => 0xFF), hfresh (fun _ => 0xFF) r' busy']

/-! ### Where the programmed window lies -/

/-- C14 fails as stated: the start of the window is not clipped, and an empty extent gives
an end below the start.  On the 128x296 panel, `x = 200`, `y = 300` are passed on as
`x_start = 200 > 127` and `y_start = 300 > 295` (the bytes sent for the window are start
column 25, start row 300), and `image_width = 0`, `image_height = 0` at the origin give
`x_end = -1` and `y_end = -1`. -/
theorem window_start_not_clipped :
    ¬ (land32 200 0xF8 ≤ (Epd.new sampleHeader).width - 1) ∧
    ¬ ((300 : Int) ≤ (Epd.new sampleHeader).height - 1) ∧
    ¬ (0 ≤ windowXEnd (Epd.new sampleHeader) (land32 0 0xF8) (land32 0 0xF8)) ∧
    ¬ (0 ≤ windowYEnd (Epd.new sampleHeader) 0 0) ∧
    land32 200 0xF8 = 200 ∧
    windowXEnd (Epd.new sampleHeader) (land32 0 0xF8) (land32 0 0xF8) = -1 ∧
    windowYEnd (Epd.new sampleHeader) 0 0 = -1 ∧
    transfers (SetFrameMemoryAt sampleHeader (some (fun _ => 0xFF)) 200 300 8 1
        (World.boot sampleHeader 0 (fun _ => Level.LOW))).trace
      = [0x44, 25, 15, 0x45, 44, 1, 39, 1, 0x4E, 25, 0x4F, 44, 1, 0x24] := by
  decide

/-- C14 (as the code has it): for an accepted windowed write (`y + image_height` not
overflowing, panel width and height positive `int`s) the window handed to `SetMemoryArea`
starts at the aligned `x` and the given `y`, which are non-negative and are not clipped,
and ends at `x_end`, `y_end` with `-1 ≤ x_end ≤ width - 1` and `-1 ≤ y_end ≤ height - 1`.
When the aligned origin is inside the panel and the aligned extent is not empty, all four
coordinates lie inside the panel, the start not after the end. -/
theorem window_coordinates (hd : Header) (buf : Int → Byte)
    (x y image_width image_height : Int) (s : World)
    (hx : 0 ≤ x) (hx' : x < 2147483648) (hy : 0 ≤ y)
    (hw : 0 ≤ image_width) (hw' : image_width < 2147483648) (hh : 0 ≤ image_height)
    (hsum : y + image_height < 2147483648)
    (hW : 0 < s.epd.width) (hW' : s.epd.width < 2147483648)
    (hH : 0 < s.epd.height) (hH' : s.epd.height < 2147483648) :
    0 ≤ land32 x 0xF8 ∧
    -1 ≤ windowXEnd s.epd (land32 x 0xF8) (land32 image_width 0xF8) ∧
    windowXEnd s.epd (land32 x 0xF8) (land32 image_width 0xF8) ≤ s.epd.width - 1 ∧
    -1 ≤ windowYEnd s.epd y image_height ∧
    windowYEnd s.epd y image_height ≤ s.epd.height - 1 ∧
    (land32 x 0xF8 ≤ s.epd.width - 1 → 8 ≤ land32 image_width 0xF8 →
      land32 x 0xF8 ≤ windowXEnd s.epd (land32 x 0xF8) (land32 image_width 0xF8)) ∧
    (y ≤ s.epd.height - 1 → 1 ≤ image_height → y ≤ windowYEnd s.epd y image_height) ∧
    SetFrameMemoryAt hd (some buf) x y image_width image_height s
      = windowRows buf (land32 x 0xF8) y (land32 image_width 0xF8)
          (windowXEnd s.epd (land32 x 0xF8) (land32 image_width 0xF8))
          (windowYEnd s.epd y image_height)
          (SendCommand hd.WRITE_RAM (SetMemoryPointer hd (land32 x 0xF8) y
            (SetMemoryArea hd (land32 x 0xF8) y
              (windowXEnd s.epd (land32 x 0xF8) (land32 image_width 0xF8))
              (windowYEnd s.epd y image_height) s))) := by
  have hxa := land32_248 x hx hx'
  have hwa := land32_248 image_width hw hw'
  have hxa0 : 0 ≤ land32 x 0xF8 := by rw [hxa]; omega
  have hxa1 : land32 x 0xF8 ≤ 248 := by rw [hxa]; omega
  have hwa0 : 0 ≤ land32 image_width 0xF8 := by rw [hwa]; omega
  have hwa1 : land32 image_width 0xF8 ≤ 248 := by rw [hwa]; omega
  have hxe := windowXEnd_exact s.epd (land32 x 0xF8) (land32 image_width 0xF8)
    hxa0 hxa1 hwa0 hwa1 hW hW'
  have hye := windowYEnd_exact s.epd y image_height hy hh hsum hH hH'
  clear hxa hwa
  refine ⟨hxa0, ?_, ?_, ?_, ?_, ?_, ?_,
    SetFrameMemoryAt_accepted hd buf x y image_width image_height s hx hy hw hh⟩
  · rw [hxe]; split <;> omega
  · rw [hxe]; split <;> omega
  · rw [hye]; split <;> omega
  · rw [hye]; split <;> omega
  · intro h1 h2
    rw [hxe]; split <;> omega
  · intro h1 h2
    rw [hye]; split <;> omega

theorem window_coordinates_witness :
    -1 ≤ windowXEnd (World.boot sampleHeader 0 (fun _ => Level.LOW)).epd
        (land32 120 0xF8) (land32 100 0xF8) ∧
    windowYEnd (World.boot sampleHeader 0 (fun _ => Level.LOW)).epd 290 10
      ≤ (World.boot sampleHeader 0 (fun _ => Level.LOW)).epd.height - 1 :=
  ⟨(window_coordinates sampleHeader (fun _ => 0) 120 290 100 10
      (World.boot sampleHeader 0 (fun _ => Level.LOW))
      (by decide) (by decide) (by decide) (by decide) (by decide) (by decide) (by decide)
      (by decide) (by decide) (by decide) (by decide)).2.1,
   (window_coordinates sampleHeader (fun _ => 0) 120 290 100 10
      (World.boot sampleHeader 0 (fun _ => Level.LOW))
      (by decide) (by decide) (by decide) (by decide) (by decide) (by decide) (by decide)
      (by decide) (by decide) (by decide) (by decide)).2.2.2.2.1⟩

/-! ### The bytes of the addressing commands -/

theorem toUChar_val (z : Int) (h0 : 0 ≤ z) (h1 : z < 256) : ((toUChar z).val : Int) = z := by
  simp only [toUChar]
  omega

/-- C15: for `x_start`, `x_end` in [0, 2047] and `y_start`, `y_end` in [0, 65535],
`SetMemoryArea` appends exactly the RAM-X start/end command with the data bytes
`x_start / 8`, `x_end / 8`, then the RAM-Y start/end command with the data bytes
`y_start % 256`, `y_start / 256`, `y_end % 256`, `y_end / 256`; `SetMemoryPointer(x, y)`
appends exactly the RAM-X counter command with `x / 8` and the RAM-Y counter command with
`y % 256`, `y / 256`.  Each Y value is its low byte plus 256 times its high byte, and each
X byte times 8 is the X value aligned down to a multiple of 8. -/
theorem addressing_bytes (hd : Header) (x_start y_start x_end y_end : Int) (s : World)
    (hxs : 0 ≤ x_start) (hxs' : x_start ≤ 2047) (hxe : 0 ≤ x_end) (hxe' : x_end ≤ 2047)
    (hys : 0 ≤ y_start) (hys' : y_start ≤ 65535) (hye : 0 ≤ y_end) (hye' : y_end ≤ 65535) :
    (SetMemoryArea hd x_start y_start x_end y_end s).trace
      = s.trace
        ++ (cmd s.epd.dc_pin hd.SET_RAM_X_ADDRESS_START_END_POSITION
          ++ dat s.epd.dc_pin (toUChar (x_start / 8))
          ++ dat s.epd.dc_pin (toUChar (x_end / 8))
          ++ cmd s.epd.dc_pin hd.SET_RAM_Y_ADDRESS_START_END_POSITION
          ++ dat s.epd.dc_pin (toUChar (y_start % 256))
          ++ dat s.epd.dc_pin (toUChar (y_start / 256))
          ++ dat s.epd.dc_pin (toUChar (y_end % 256))
          ++ dat s.epd.dc_pin (toUChar (y_end / 256))) ∧
    (SetMemoryPointer hd x_start y_start s).trace
      = s.trace
        ++ (cmd s.epd.dc_pin hd.SET_RAM_X_ADDRESS_COUNTER
          ++ dat s.epd.dc_pin (toUChar (x_start / 8))
          ++ cmd s.epd.dc_pin hd.SET_RAM_Y_ADDRESS_COUNTER
          ++ dat s.epd.dc_pin (toUChar (y_start % 256))
          ++ dat s.epd.dc_pin (toUChar (y_start / 256))) ∧
    ((toUChar (x_start / 8)).val : Int) = x_start / 8 ∧
    ((toUChar (x_end / 8)).val : Int) = x_end / 8 ∧
    ((toUChar (y_start % 256)).val : Int) = y_start % 256 ∧
    ((toUChar (y_start / 256)).val : Int) = y_start / 256 ∧
    ((toUChar (y_end % 256)).val : Int) = y_end % 256 ∧
    ((toUChar (y_end / 256)).val : Int) = y_end / 256 ∧
    ((toUChar (y_start % 256)).val : Int) + 256 * ((toUChar (y_start / 256)).val : Int)
      = y_start ∧
    ((toUChar (y_end % 256)).val : Int) + 256 * ((toUChar (y_end / 256)).val : Int)
      = y_end ∧
    ((toUChar (x_start / 8)).val : Int) * 8 = x_start - x_start % 8 ∧
    ((toUChar (x_end / 8)).val : Int) * 8 = x_end - x_end % 8 := by
  have b1 := toUChar_val (x_start / 8) (by omega) (by omega)
  have b2 := toUChar_val (x_end / 8) (by omega) (by omega)
  have b3 := toUChar_val (y_start % 256) (by omega) (by omega)
  have b4 := toUChar_val (y_start / 256) (by omega) (by omega)
  have b5 := toUChar_val (y_end % 256) (by omega) (by omega)
  have b6 := toUChar_val (y_end / 256) (by omega) (by omega)
  refine ⟨?_, ?_, b1, b2, b3, b4, b5, b6, ?_, ?_, ?_, ?_⟩
  · rw [SetMemoryArea_trace]
    simp only [areaStream, List.append_assoc]
  · rw [SetMemoryPointer_trace]
    simp only [pointerStream, List.append_assoc]
  · rw [b3, b4]; omega
  · rw [b5, b6]; omega
  · rw [b1]; omega
  · rw [b2]; omega

theorem addressing_bytes_witness :
    ((toUChar ((127 : Int) / 8)).val : Int) = 127 / 8 ∧
    ((toUChar ((295 : Int) % 256)).val : Int) + 256 * ((toUChar ((295 : Int) / 256)).val : Int)
      = 295 :=
  ⟨(addressing_bytes sampleHeader 0 0 127 295
      (World.boot sampleHeader 0 (fun _ => Level.LOW))
      (by decide) (by decide) (by decide) (by decide) (by decide) (by decide) (by decide)
      (by decide)).2.2.2.1,
   (addressing_bytes sampleHeader 0 0 127 295
      (World.boot sampleHeader 0 (fun _ => Level.LOW))
      (by decide) (by decide) (by decide) (by decide) (by decide) (by decide) (by decide)
      (by decide)).2.2.2.2.2.2.2.2.2.1⟩

/-! ### Reads of caller memory -/

theorem SendCommand_reads (c : Byte) (s : World) : (SendCommand c s).reads = s.reads := by
  simp only [SendCommand, DigitalWrite, SpiTransfer]

theorem SendData_reads (d : Byte) (s : World) : (SendData d s).reads = s.reads := by
  simp only [SendData, DigitalWrite, SpiTransfer]

theorem Serial_print_reads (t : String) (s : World) : (Serial_print t s).reads = s.reads := by
  simp only [Serial_print]

theorem Serial_println_reads (t : String) (s : World) :
    (Serial_println t s).reads = s.reads := by
  simp only [Serial_println]

theorem SetMemoryArea_reads (hd : Header) (x_start y_start x_end y_end : Int) (s : World) :
    (SetMemoryArea hd x_start y_start x_end y_end s).reads = s.reads := by
  simp only [SetMemoryArea, SendCommand_reads, SendData_reads]

theorem SetMemoryPointer_reads (hd : Header) (x y : Int) (s : World) :
    (SetMemoryPointer hd x y s).reads = s.reads := by
  simp only [SetMemoryPointer, SendCommand_reads, SendData_reads]

theorem flatMap_singleton_map {α β : Type} (g : α → β) (l : List α) :
    l.flatMap (fun a => [g a]) = l.map g := by
  induction l with
  | nil => rfl
  | cons a rest ih => simp only [List.flatMap_cons, List.map_cons, ih, List.singleton_append]

theorem SetLut_reads (hd : Header) (table : Int → Byte) (s : World) :
    (SetLut hd table s).reads
      = s.reads ++ (List.range 70).map (fun (k : Nat) => Read.lut (k : Int)) := by
  have h := (forLoop_acc World.reads (fun _ => True) 70 0
    (fun i s =>
        let (b, s) := readLut i s
        SendData b s) (fun i => [Read.lut i])
    (by
      intro i w _ _ _
      refine ⟨trivial, ?_⟩
      simp only [readLut, SendData_reads])
    70 0 (SendCommand hd.WRITE_LUT_REGISTER
      { (Serial_print "Writing LUT" s) with
        epd := { (Serial_print "Writing LUT" s).epd with lut := some table } })
    (le_refl _) trivial (by decide)).2
  unfold SetLut
  rw [Serial_println_reads]
  have h70 : ((70 : Int) - 0).toNat = 70 := by decide
  rw [h70] at h
  simp only [zero_add] at h
  rw [flatMap_singleton_map (fun (k : Nat) => Read.lut (k : Int))] at h
  rw [h, SendCommand_reads]
  simp only [Serial_print]
theorem imageLoop_reads (image_buffer : Int → Byte) (n : Int) (s : World) :
    (forLoop n (fun i s =>
        let (b, s) := readImage image_buffer i s
        SendData b s) n.toNat 0 s).reads
      = s.reads ++ (List.range n.toNat).map (fun (k : Nat) => Read.image (k : Int)) := by
  have h := (forLoop_acc World.reads (fun _ => True) n 0
    (fun i s =>
        let (b, s) := readImage image_buffer i s
        SendData b s) (fun i => [Read.image i])
    (by
      intro i w _ _ _
      refine ⟨trivial, ?_⟩
      simp only [readImage, SendData_reads])
    n.toNat 0 s (le_refl _) trivial (by simp)).2
  simp only [zero_add, sub_zero] at h
  rw [flatMap_singleton_map (fun (k : Nat) => Read.image (k : Int))] at h
  exact h

theorem flatMap_nil_fun {α β : Type} (l : List α) :
    l.flatMap (fun _ => ([] : List β)) = [] := by
  induction l with
  | nil => rfl
  | cons a rest ih => simp only [List.flatMap_cons, ih, List.append_nil]

theorem colorLoop_reads (color : Byte) (n : Int) (s : World) :
    (forLoop n (fun _ s => SendData color s) n.toNat 0 s).reads = s.reads := by
  have h := (forLoop_acc World.reads (fun _ => True) n 0
    (fun _ s => SendData color s) (fun _ => [])
    (by
      intro i w _ _ _
      refine ⟨trivial, ?_⟩
      simp only [SendData_reads, List.append_nil])
    n.toNat 0 s (le_refl _) trivial (by simp)).2
  simp only [sub_zero] at h
  rw [flatMap_nil_fun, List.append_nil] at h
  exact h

theorem SetFrameMemory_reads (hd : Header) (image_buffer : Int → Byte) (s : World)
    (hw : s.epd.width = EPD_WIDTH) (hh : s.epd.height = EPD_HEIGHT) :
    (SetFrameMemory hd image_buffer s).reads
      = s.reads ++ (List.range 70).map (fun (k : Nat) => Read.lut (k : Int))
          ++ (List.range 4736).map (fun (k : Nat) => Read.image (k : Int)) := by
  have hn : (imul (Int.tdiv EPD_WIDTH 8) EPD_HEIGHT).toNat = 4736 := by decide
  unfold SetFrameMemory
  rw [Serial_println_reads, imageLoop_reads]
  simp only [SendCommand_reads, SendCommand_epd, SetMemoryPointer_reads, SetMemoryPointer_epd,
    SetMemoryArea_reads, SetMemoryArea_epd, Serial_print_reads, Serial_print_epd,
    SetLut_reads, SetLut_epd, hw, hh, hn]

theorem ClearFrameMemory_reads (hd : Header) (color : Byte) (s : World) :
    (ClearFrameMemory hd color s).reads
      = s.reads ++ (List.range 70).map (fun (k : Nat) => Read.lut (k : Int)) := by
  unfold ClearFrameMemory
  rw [Serial_println_reads, colorLoop_reads]
  simp only [SendCommand_reads, SetMemoryPointer_reads, SetMemoryArea_reads,
    Serial_print_reads, SetLut_reads]

theorem lut_reads_in_table (i : Int)
    (h : Read.lut i ∈ (List.range 70).map (fun (k : Nat) => Read.lut (k : Int))) :
    0 ≤ i ∧ i < 70 := by
  rw [List.mem_map] at h
  obtain ⟨k, hk, he⟩ := h
  rw [List.mem_range] at hk
  injection he with he
  omega

theorem lut_not_image (i : Int) (l : List Nat) :
    Read.lut i ∉ l.map (fun (k : Nat) => Read.image (k : Int)) := by
  intro h
  rw [List.mem_map] at h
  obtain ⟨k, _, he⟩ := h
  cases he

/-- C17: the tables `lut_full_update` and `lut_partial_update` have exactly 70 entries,
and `SetLut` reads the table at exactly the indices 0, 1, ..., 69 in that order: every
index it reads lies inside either built-in table.  The same holds for the table reads of
the full-frame `SetFrameMemory` and of `ClearFrameMemory` on the 128x296 panel, whose only
table reads are those of `SetLut(lut_full_update)`. -/
theorem lut_reads_within_table (hd : Header) (table image_buffer : Int → Byte)
    (color : Byte) (s : World)
    (hw : s.epd.width = EPD_WIDTH) (hh : s.epd.height = EPD_HEIGHT) :
    lut_full_update_bytes.length = 70 ∧ lut_partial_update_bytes.length = 70 ∧
    (SetLut hd table s).reads
      = s.reads ++ (List.range 70).map (fun (k : Nat) => Read.lut (k : Int)) ∧
    (∀ i, Read.lut i ∈ (List.range 70).map (fun (k : Nat) => Read.lut (k : Int)) →
      0 ≤ i ∧ i < (lut_full_update_bytes.length : Int) ∧
        i < (lut_partial_update_bytes.length : Int)) ∧
    (∃ added, (SetFrameMemory hd image_buffer s).reads = s.reads ++ added ∧
      ∀ i, Read.lut i ∈ added → 0 ≤ i ∧ i < (lut_full_update_bytes.length : Int)) ∧
    (∃ added, (ClearFrameMemory hd color s).reads = s.reads ++ added ∧
      ∀ i, Read.lut i ∈ added → 0 ≤ i ∧ i < (lut_full_update_bytes.length : Int)) := by
  have hl1 : lut_full_update_bytes.length = 70 := by decide
  have hl2 : lut_partial_update_bytes.length = 70 := by decide
  refine ⟨hl1, hl2, SetLut_reads hd table s, ?_, ?_, ?_⟩
  · intro i hi
    have := lut_reads_in_table i hi
    rw [hl1, hl2]
    omega
  · refine ⟨_, by rw [SetFrameMemory_reads hd image_buffer s hw hh, List.append_assoc], ?_⟩
    intro i hi
    rw [List.mem_append] at hi
    rcases hi with hi | hi
    · have := lut_reads_in_table i hi
      rw [hl1]
      omega
    · exact absurd hi (lut_not_image i _)
  · refine ⟨_, ClearFrameMemory_reads hd color s, ?_⟩
    intro i hi
    have := lut_reads_in_table i hi
    rw [hl1]
    omega

theorem lut_reads_within_table_witness :
    (SetLut sampleHeader lut_partial_update
        (World.boot sampleHeader 0 (fun _ => Level.LOW))).reads
      = [] ++ (List.range 70).map (fun (k : Nat) => Read.lut (k : Int)) :=
  (lut_reads_within_table sampleHeader lut_partial_update (fun _ => 0) 0
    (World.boot sampleHeader 0 (fun _ => Level.LOW)) rfl rfl).2.2.1

/-! ### Reads of the image buffer by the windowed write -/

/-- The reads of the data loops of the windowed write, as the loops make them. -/
theorem windowRows_reads (image_buffer : Int → Byte) (x y image_width x_end y_end : Int)
    (s : World) :
    (windowRows image_buffer x y image_width x_end y_end s).reads
      = s.reads ++ (List.range (iadd (isub y_end y) 1).toNat).flatMap (fun (j : Nat) =>
          (List.range (Int.tdiv (iadd (isub x_end x) 1) 8).toNat).flatMap (fun (i : Nat) =>
            [Read.image (iadd (i : Int) (imul (j : Int) (Int.tdiv image_width 8)))])) := by
  have inner : ∀ (j : Int) (w : World), True →
      True ∧
      (forLoop (Int.tdiv (iadd (isub x_end x) 1) 8) (fun i s =>
          let (b, s) := readImage image_buffer (iadd i (imul j (Int.tdiv image_width 8))) s
          SendData b s) (Int.tdiv (iadd (isub x_end x) 1) 8).toNat 0 w).reads
        = w.reads ++ (List.range (Int.tdiv (iadd (isub x_end x) 1) 8).toNat).flatMap
            (fun (i : Nat) =>
              [Read.image (iadd (i : Int) (imul j (Int.tdiv image_width 8)))]) := by
    intro j w _
    have h := forLoop_acc World.reads (fun _ => True)
      (Int.tdiv (iadd (isub x_end x) 1) 8) 0
      (fun i s =>
          let (b, s) := readImage image_buffer (iadd i (imul j (Int.tdiv image_width 8))) s
          SendData b s)
      (fun i => [Read.image (iadd i (imul j (Int.tdiv image_width 8)))])
      (by
        intro i v _ _ _
        refine ⟨trivial, ?_⟩
        simp only [readImage, SendData_reads])
      (Int.tdiv (iadd (isub x_end x) 1) 8).toNat 0 w (le_refl _) trivial (by simp)
    simpa using h
  have h := forLoop_acc World.reads (fun _ => True) (iadd (isub y_end y) 1) 0
    (fun j s =>
      forLoop (Int.tdiv (iadd (isub x_end x) 1) 8) (fun i s =>
        let (b, s) := readImage image_buffer (iadd i (imul j (Int.tdiv image_width 8))) s
        SendData b s) (Int.tdiv (iadd (isub x_end x) 1) 8).toNat 0 s)
    (fun j => (List.range (Int.tdiv (iadd (isub x_end x) 1) 8).toNat).flatMap
            (fun (i : Nat) =>
              [Read.image (iadd (i : Int) (imul j (Int.tdiv image_width 8)))]))
    (by
      intro j w _ _ hw
      exact inner j w hw)
    (iadd (isub y_end y) 1).toNat 0 s (le_refl _) trivial (by simp)
  unfold windowRows
  simpa using h.2

theorem SetFrameMemoryAt_reads (hd : Header) (buf : Int → Byte)
    (x y image_width image_height : Int) (s : World)
    (hx : 0 ≤ x) (hy : 0 ≤ y) (hw : 0 ≤ image_width) (hh : 0 ≤ image_height) :
    (SetFrameMemoryAt hd (some buf) x y image_width image_height s).reads
      = s.reads
        ++ (List.range (iadd (isub (windowYEnd s.epd y image_height) y) 1).toNat).flatMap
            (fun (j : Nat) =>
              (List.range (Int.tdiv (iadd (isub
                  (windowXEnd s.epd (land32 x 0xF8) (land32 image_width 0xF8))
                  (land32 x 0xF8)) 1) 8).toNat).flatMap
                (fun (i : Nat) => [Read.image (iadd (i : Int)
                    (imul (j : Int) (Int.tdiv (land32 image_width 0xF8) 8)))])) := by
  rw [SetFrameMemoryAt_accepted hd buf x y image_width image_height s hx hy hw hh,
    windowRows_reads]
  simp only [SendCommand_reads, SetMemoryPointer_reads, SetMemoryArea_reads]
/-- The index read at column `i` of row `j` lies inside a buffer of
`(image_width / 8) * image_height` bytes. -/
theorem read_index_bound (i j xa y wa xe ye w h : Int)
    (hi0 : 0 ≤ i) (hi1 : i < Int.tdiv (iadd (isub xe xa) 1) 8)
    (hj0 : 0 ≤ j) (hj1 : j < iadd (isub ye y) 1)
    (hy : 0 ≤ y) (hy' : y < 2147483648) (hxa0 : 0 ≤ xa) (hxa1 : xa ≤ 248)
    (hwa0 : 0 ≤ wa) (hwa1 : wa ≤ 248) (hwaw : wa ≤ w)
    (hxe0 : -1 ≤ xe) (hxe1 : xe < 2147483647) (hspan : xe - xa + 1 ≤ wa)
    (hye0 : -1 ≤ ye) (hye1 : ye < 2147483647) (hye2 : ye - y + 1 ≤ 67108864)
    (hrowsh : ye - y + 1 ≤ h) :
    0 ≤ iadd i (imul j (Int.tdiv wa 8)) ∧ iadd i (imul j (Int.tdiv wa 8)) < w / 8 * h := by
  have hrows : iadd (isub ye y) 1 = ye - y + 1 := span_exact ye y hye0 hye1 hy hy'
  have hcols : iadd (isub xe xa) 1 = xe - xa + 1 := span_exact xe xa hxe0 hxe1 hxa0 (by omega)
  have hstride : Int.tdiv wa 8 = wa / 8 := Int.tdiv_eq_ediv hwa0 (by decide)
  rw [hrows] at hj1
  rw [hcols] at hi1
  have hpos : 0 ≤ xe - xa + 1 := by
    by_contra hneg
    have := tdiv_eight_nonpos (xe - xa + 1) (by omega)
    omega
  rw [Int.tdiv_eq_ediv hpos (by decide)] at hi1
  have hst0 : 0 ≤ wa / 8 := by omega
  have hst1 : wa / 8 ≤ 31 := by omega
  have hist : i + 1 ≤ wa / 8 := by omega
  have hstw : wa / 8 ≤ w / 8 := by omega
  rw [hstride, index_exact i j (wa / 8) hi0 (by omega) hj0 (by omega) hst0 hst1]
  have hp0 : 0 ≤ j * (wa / 8) := Int.mul_nonneg hj0 hst0
  have h1 : (j + 1) * (wa / 8) ≤ h * (wa / 8) :=
    Int.mul_le_mul_of_nonneg_right (by omega) hst0
  have h2 : h * (wa / 8) ≤ h * (w / 8) :=
    Int.mul_le_mul_of_nonneg_left hstw (by omega)
  have h3 : (j + 1) * (wa / 8) = j * (wa / 8) + wa / 8 := by ring
  have h4 : w / 8 * h = h * (w / 8) := by ring
  rw [h4]
  constructor
  · omega
  · omega
theorem lt_of_lt_toNat (i : Nat) (t : Int) (h : i < t.toNat) : (i : Int) < t := by omega

theorem toNat_zero_of_nonpos (t : Int) (h : t ≤ 0) : t.toNat = 0 := by omega

/-- What the clipping leaves of a window: the bounds on `x_end` and `y_end` that the data
loops rely on, from the exact values of `x_end` and `y_end`. -/
theorem window_span_facts (W H xa wa y h xe ye : Int)
    (hxe : xe = if xa + wa ≥ W then W - 1 else xa + wa - 1)
    (hye : ye = if y + h ≥ H then H - 1 else y + h - 1)
    (hxa0 : 0 ≤ xa) (hwa0 : 0 ≤ wa) (hwa1 : wa ≤ 248) (hy : 0 ≤ y) (hh : 0 ≤ h)
    (hsum : y + h < 2147483648)
    (hW : 0 < W) (hW' : W < 2147483648) (hH : 0 < H) (hH' : H ≤ 67108864) :
    -1 ≤ xe ∧ xe < 2147483647 ∧ xe - xa + 1 ≤ wa ∧
    -1 ≤ ye ∧ ye < 2147483647 ∧ ye - y + 1 ≤ 67108864 ∧ ye - y + 1 ≤ h ∧
    (W ≤ xa → xe - xa + 1 ≤ 0) ∧ (H ≤ y → ye - y + 1 ≤ 0) := by
  subst hxe hye
  refine ⟨?_, ?_, ?_, ?_, ?_, ?_, ?_, ?_, ?_⟩
  · split <;> omega
  · split <;> omega
  · split <;> omega
  · split <;> omega
  · split <;> omega
  · split <;> omega
  · split <;> omega
  · intro hout; split <;> omega
  · intro hout; split <;> omega

/-- Every index an accepted windowed write reads lies inside a buffer of
`(image_width / 8) * image_height` bytes, the requested width and height, on a panel of
height at most 2^26; and nothing is read when the aligned `x` is at or beyond the panel
width or `y` is at or beyond the panel height. -/
theorem windowed_reads_in_bounds (hd : Header) (buf : Int → Byte)
    (x y image_width image_height : Int) (s : World)
    (hx : 0 ≤ x) (hx' : x < 2147483648) (hy : 0 ≤ y)
    (hw : 0 ≤ image_width) (hw' : image_width < 2147483648) (hh : 0 ≤ image_height)
    (hsum : y + image_height < 2147483648)
    (hW : 0 < s.epd.width) (hW' : s.epd.width < 2147483648)
    (hH : 0 < s.epd.height) (hH' : s.epd.height ≤ 67108864) :
    ∃ added, (SetFrameMemoryAt hd (some buf) x y image_width image_height s).reads
        = s.reads ++ added ∧
      (∀ r, r ∈ added → ∃ idx, r = Read.image idx ∧
        0 ≤ idx ∧ idx < image_width / 8 * image_height) ∧
      (s.epd.width ≤ land32 x 0xF8 ∨ s.epd.height ≤ y → added = []) := by
  have hy' : y < 2147483648 := by omega
  have hH'' : s.epd.height < 2147483648 := by omega
  have hxa := land32_248 x hx hx'
  have hwa := land32_248 image_width hw hw'
  have hxa0 : 0 ≤ land32 x 0xF8 := by rw [hxa]; omega
  have hxa1 : land32 x 0xF8 ≤ 248 := by rw [hxa]; omega
  have hxa2 : land32 x 0xF8 < 2147483648 := by rw [hxa]; omega
  have hwa0 : 0 ≤ land32 image_width 0xF8 := by rw [hwa]; omega
  have hwa1 : land32 image_width 0xF8 ≤ 248 := by rw [hwa]; omega
  have hwaw : land32 image_width 0xF8 ≤ image_width := by rw [hwa]; omega
  clear hxa hwa
  have hxe := windowXEnd_exact s.epd (land32 x 0xF8) (land32 image_width 0xF8)
    hxa0 hxa1 hwa0 hwa1 hW hW'
  have hye := windowYEnd_exact s.epd y image_height hy hh hsum hH hH''
  obtain ⟨hxe0, hxe1, hspan, hye0, hye1, hye2, hrowsh, houtx, houty⟩ :=
    window_span_facts s.epd.width s.epd.height (land32 x 0xF8) (land32 image_width 0xF8)
      y image_height _ _ hxe hye hxa0 hwa0 hwa1 hy hh hsum hW hW' hH hH'
  refine ⟨_, SetFrameMemoryAt_reads hd buf x y image_width image_height s hx hy hw hh, ?_, ?_⟩
  · intro r hr
    rw [List.mem_flatMap] at hr
    obtain ⟨j, hj, hr⟩ := hr
    rw [List.mem_flatMap] at hr
    obtain ⟨i, hi, hr⟩ := hr
    rw [List.mem_range] at hi hj
    rw [List.mem_singleton] at hr
    refine ⟨_, hr, ?_⟩
    exact read_index_bound (i : Int) (j : Int) (land32 x 0xF8) y (land32 image_width 0xF8)
      (windowXEnd s.epd (land32 x 0xF8) (land32 image_width 0xF8))
      (windowYEnd s.epd y image_height) image_width image_height
      (Int.ofNat_nonneg i) (lt_of_lt_toNat i _ hi) (Int.ofNat_nonneg j)
      (lt_of_lt_toNat j _ hj) hy hy' hxa0 hxa1 hwa0 hwa1 hwaw
      hxe0 hxe1 hspan hye0 hye1 hye2 hrowsh
  · intro hout
    have hrows : iadd (isub (windowYEnd s.epd y image_height) y) 1
        = windowYEnd s.epd y image_height - y + 1 :=
      span_exact _ y hye0 hye1 hy hy'
    have hcols : iadd (isub (windowXEnd s.epd (land32 x 0xF8) (land32 image_width 0xF8))
        (land32 x 0xF8)) 1
        = windowXEnd s.epd (land32 x 0xF8) (land32 image_width 0xF8) - land32 x 0xF8 + 1 :=
      span_exact _ _ hxe0 hxe1 hxa0 hxa2
    rw [hrows, hcols]
    rcases hout with hout | hout
    · have hc := tdiv_eight_nonpos _ (houtx hout)
      have hz := toNat_zero_of_nonpos _ hc
      rw [hz, List.range_zero]
      simp only [List.flatMap_nil]
      exact flatMap_nil_fun _
    · have hz := toNat_zero_of_nonpos _ (houty hout)
      rw [hz, List.range_zero, List.flatMap_nil]

/-- C18 does not hold on the code where it says that nothing is read when `x ≥ width`:
the mask `& 0xF8` turns `x = 256`, which lies beyond the 128-pixel panel, into 0, and a
one-row, 8-pixel write there reads `image_buffer[0]` and sends it to byte column 0.  At
`x = 128` the same write reads nothing. -/
theorem off_panel_x_reads_buffer :
    ¬ ((256 : Int) < (Epd.new sampleHeader).width) ∧
    land32 256 0xF8 = 0 ∧
    (SetFrameMemoryAt sampleHeader (some (fun i => toUChar i)) 256 0 8 1
        (World.boot sampleHeader 0 (fun _ => Level.LOW))).reads
      = [Read.image 0] ∧
    transfers (SetFrameMemoryAt sampleHeader (some (fun i => toUChar i)) 256 0 8 1
        (World.boot sampleHeader 0 (fun _ => Level.LOW))).trace
      = [0x44, 0, 0, 0x45, 0, 0, 0, 0, 0x4E, 0, 0x4F, 0, 0, 0x24, 0] ∧
    (SetFrameMemoryAt sampleHeader (some (fun i => toUChar i)) 128 0 8 1
        (World.boot sampleHeader 0 (fun _ => Level.LOW))).reads
      = [] := by
  decide

/-! ### The streamed bytes fill the programmed window -/

theorem transfers_flatMap {α : Type} (f : α → List Event) (l : List α) :
    transfers (l.flatMap f) = l.flatMap (fun a => transfers (f a)) := by
  induction l with
  | nil => rfl
  | cons a rest ih => simp only [List.flatMap_cons, transfers_append, ih]

theorem length_flatMap_const {α β : Type} (f : α → List β) (c : Nat) (l : List α)
    (h : ∀ a, (f a).length = c) : (l.flatMap f).length = l.length * c := by
  induction l with
  | nil => simp
  | cons a rest ih =>
    simp only [List.flatMap_cons, List.length_append, List.length_cons, h, ih]
    ring

/-- The number of bytes in a block of `rows` rows of `cols` data bytes. -/
theorem rows_transfer_count (dc : Nat) (g : Nat → Nat → Byte) (rows cols : Nat) :
    (transfers ((List.range rows).flatMap (fun (j : Nat) =>
      (List.range cols).flatMap (fun (i : Nat) => dat dc (g i j))))).length
      = rows * cols := by
  rw [transfers_flatMap]
  rw [length_flatMap_const _ cols]
  · rw [List.length_range]
  · intro j
    rw [transfers_flatMap_dat dc (fun i => g i j), List.length_map, List.length_range]

/-- The capacity of a window that starts inside the panel and is not empty, on a panel
whose width is a multiple of 8: the bytes per row that the loop streams are the byte
columns of the window, and both factors are positive. -/
theorem window_capacity_facts (W H xa wa y h xe ye : Int)
    (hxe : xe = if xa + wa ≥ W then W - 1 else xa + wa - 1)
    (hye : ye = if y + h ≥ H then H - 1 else y + h - 1)
    (hxa8 : xa % 8 = 0) (hwa8 : wa % 8 = 0) (hW8 : W % 8 = 0)
    (hin : xa < W) (hwa : 8 ≤ wa) (hyin : y < H) (hh : 1 ≤ h) :
    Int.tdiv (xe - xa + 1) 8 = xe / 8 - xa / 8 + 1 ∧
    0 < xe / 8 - xa / 8 + 1 ∧ 0 < ye - y + 1 := by
  subst hxe hye
  refine ⟨?_, ?_, ?_⟩
  · split
    · rw [Int.tdiv_eq_ediv (by omega) (by decide)]; omega
    · rw [Int.tdiv_eq_ediv (by omega) (by decide)]; omega
  · split <;> omega
  · split <;> omega

theorem toNat_mul_toNat (a b : Int) (ha : 0 ≤ a) (hb : 0 ≤ b) :
    ((a.toNat * b.toNat : Nat) : Int) = b * a := by
  rw [Nat.cast_mul, Int.toNat_of_nonneg ha, Int.toNat_of_nonneg hb]
  ring

/-! ### The full-frame write and the windowed write of the whole panel -/

/-- Rows of `n` entries read at `i + j * n` enumerate `0, 1, ..., m * n - 1` in order. -/
theorem flatMap_grid {β : Type} (f : Int → List β) (n : Nat) :
    ∀ m : Nat, (List.range m).flatMap (fun (j : Nat) =>
        (List.range n).flatMap (fun (i : Nat) => f ((i : Int) + (j : Int) * (n : Int))))
      = (List.range (m * n)).flatMap (fun (k : Nat) => f (k : Int)) := by
  intro m
  induction m with
  | zero => simp
  | succ m ih =>
    rw [List.range_succ, List.flatMap_append, ih, Nat.succ_mul, List.range_add,
      List.flatMap_append, List.flatMap_map]
    congr 1
    simp only [List.flatMap_cons, List.flatMap_nil, List.append_nil]
    apply List.flatMap_congr
    intro i _
    congr 1
    push_cast
    ring
/-- The windowed write of the whole 128x296 panel, from any world with that geometry. -/
theorem whole_panel_window_trace (hd : Header) (B : Int → Byte) (s : World)
    (hw : s.epd.width = EPD_WIDTH) (hh : s.epd.height = EPD_HEIGHT) :
    (SetFrameMemoryAt hd (some B) 0 0 EPD_WIDTH EPD_HEIGHT s).trace
      = s.trace ++ areaStream hd s.epd.dc_pin 0 0 127 295
          ++ pointerStream hd s.epd.dc_pin 0 0
          ++ cmd s.epd.dc_pin hd.WRITE_RAM
          ++ (List.range 4736).flatMap (fun (k : Nat) => dat s.epd.dc_pin (B (k : Int))) := by
  have h0 : land32 0 0xF8 = 0 := by decide
  have hwm : land32 EPD_WIDTH 0xF8 = 128 := by decide
  have hxe : windowXEnd s.epd 0 128 = 127 := by
    unfold windowXEnd
    rw [hw]
    decide
  have hye : windowYEnd s.epd 0 EPD_HEIGHT = 295 := by
    unfold windowYEnd
    rw [hh]
    decide
  have hexact := rows_exact s.epd.dc_pin B 0 0 128 127 295
    (by decide) (by decide) (by decide) (by decide) (by decide) (by decide) (by decide)
    (by decide) (by decide) (by decide) (by decide) (by decide)
  have hr : ((295 : Int) - 0 + 1).toNat = 296 := by decide
  have hc : (Int.tdiv ((127 : Int) - 0 + 1) 8).toNat = 16 := by decide
  have hs : (128 : Int) / 8 = 16 := by decide
  rw [hr, hc, hs] at hexact
  have hgrid := flatMap_grid (fun k => dat s.epd.dc_pin (B k)) 16 296
  simp only [Nat.cast_ofNat] at hgrid
  have hmul : 296 * 16 = 4736 := by decide
  rw [hmul] at hgrid
  rw [SetFrameMemoryAt_trace hd B 0 0 EPD_WIDTH EPD_HEIGHT s (by decide) (by decide)
    (by decide) (by decide), h0, hwm, hxe, hye, hexact, hgrid]

/-- C20: on the 128x296 panel the trace of the full-frame `SetFrameMemory(B)` is the trace
of `SetLut(lut_full_update)` followed by the windowed
`SetFrameMemory(B, 0, 0, width, height)`: the windowed write of the whole panel programs
the same window and cursor and streams the same 4736 bytes in the same order, so the two
differ only by the LUT load in front. -/
theorem full_frame_is_lut_then_window (hd : Header) (B : Int → Byte) (s : World)
    (hw : s.epd.width = EPD_WIDTH) (hh : s.epd.height = EPD_HEIGHT) :
    (SetFrameMemory hd B s).trace
      = (SetFrameMemoryAt hd (some B) 0 0 s.epd.width s.epd.height
          (SetLut hd lut_full_update s)).trace ∧
    emitted (SetFrameMemory hd B) s
      = emitted (SetLut hd lut_full_update) s
        ++ emitted (SetFrameMemoryAt hd (some B) 0 0 s.epd.width s.epd.height)
            (SetLut hd lut_full_update s) ∧
    emitted (SetFrameMemoryAt hd (some B) 0 0 s.epd.width s.epd.height)
        (SetLut hd lut_full_update s)
      = areaStream hd s.epd.dc_pin 0 0 127 295
          ++ pointerStream hd s.epd.dc_pin 0 0
          ++ cmd s.epd.dc_pin hd.WRITE_RAM
          ++ (List.range 4736).flatMap (fun (k : Nat) => dat s.epd.dc_pin (B (k : Int))) := by
  have he : (SetLut hd lut_full_update s).epd = { s.epd with lut := some lut_full_update } :=
    SetLut_epd hd lut_full_update s
  have hw2 : (SetLut hd lut_full_update s).epd.width = EPD_WIDTH := by rw [he]; exact hw
  have hh2 : (SetLut hd lut_full_update s).epd.height = EPD_HEIGHT := by rw [he]; exact hh
  have hdc : (SetLut hd lut_full_update s).epd.dc_pin = s.epd.dc_pin := by rw [he]
  have hwin := whole_panel_window_trace hd B (SetLut hd lut_full_update s) hw2 hh2
  rw [hdc] at hwin
  have hfull := SetFrameMemory_trace hd B s hw hh
  have e1 : EPD_WIDTH - 1 = 127 := by decide
  have e2 : EPD_HEIGHT - 1 = 295 := by decide
  rw [e1, e2] at hfull
  have hlut := SetLut_trace hd lut_full_update s
  have hwinE : emitted (SetFrameMemoryAt hd (some B) 0 0 EPD_WIDTH EPD_HEIGHT)
      (SetLut hd lut_full_update s)
      = areaStream hd s.epd.dc_pin 0 0 127 295
          ++ pointerStream hd s.epd.dc_pin 0 0
          ++ cmd s.epd.dc_pin hd.WRITE_RAM
          ++ (List.range 4736).flatMap (fun (k : Nat) => dat s.epd.dc_pin (B (k : Int))) := by
    apply emitted_eq
    rw [hwin]
    simp only [List.append_assoc]
  rw [hw, hh]
  refine ⟨?_, ?_, hwinE⟩
  · rw [hfull, hwin, hlut]
  · rw [hwinE, emitted_eq _ s _ hlut]
    apply emitted_eq
    rw [hfull]
    simp only [List.append_assoc]

theorem full_frame_is_lut_then_window_witness :
    (SetFrameMemory sampleHeader (fun _ => 0xFF)
        (World.boot sampleHeader 0 (fun _ => Level.LOW))).trace
      = (SetFrameMemoryAt sampleHeader (some (fun _ => 0xFF)) 0 0
          (World.boot sampleHeader 0 (fun _ => Level.LOW)).epd.width
          (World.boot sampleHeader 0 (fun _ => Level.LOW)).epd.height
          (SetLut sampleHeader lut_full_update
            (World.boot sampleHeader 0 (fun _ => Level.LOW)))).trace :=
  (full_frame_is_lut_then_window sampleHeader (fun _ => 0xFF)
    (World.boot sampleHeader 0 (fun _ => Level.LOW)) rfl rfl).1

/-! ### The refresh sequence, byte by byte -/

/-- The world `DisplayFrame` has reached when it starts waiting: every part of it is fixed
by the world `DisplayFrame` started in. -/
theorem DisplayFrame_split_full (s : World) :
    ∃ s' : World, s'.epd = s.epd ∧ s'.polls = s.polls ∧ s'.busy = s.busy ∧
      s'.reads = s.reads ∧ s'.ifInitResult = s.ifInitResult ∧
      s'.console = s.console ++ [Out.print "Displaying frame"] ∧
      s'.trace = s.trace ++ displayStream s.epd.dc_pin ∧
      ∀ fuel, DisplayFrame fuel s = (WaitUntilIdle fuel s').map (Serial_println " done.") := by
  refine ⟨SendCommand 0x20 (SendData 0xC7 (SendCommand 0x22 (SendData 0x00 (SendData 0x00
    (SendCommand 0x0f (SendData 0x00 (SendData 0x01 (SendData 0x27 (SendCommand 0x01
    (SendData 0x08 (SendCommand 0x3B (SendData 26 (SendCommand 0x3A
    (Serial_print "Displaying frame" s)))))))))))))), ?_, ?_, ?_, ?_, ?_, ?_, ?_, ?_⟩
  · simp only [SendCommand_epd, SendData_epd, Serial_print_epd]
  · simp only [SendCommand, SendData, DigitalWrite, SpiTransfer, Serial_print]
  · simp only [SendCommand, SendData, DigitalWrite, SpiTransfer, Serial_print]
  · simp only [SendCommand, SendData, DigitalWrite, SpiTransfer, Serial_print]
  · simp only [SendCommand, SendData, DigitalWrite, SpiTransfer, Serial_print]
  · simp only [SendCommand, SendData, DigitalWrite, SpiTransfer, Serial_print]
  · simp only [SendCommand_trace, SendData_trace, SendCommand_epd, SendData_epd,
      Serial_print_epd, Serial_print_trace, displayStream, List.append_assoc]
  · intro fuel
    simp only [DisplayFrame]
    cases WaitUntilIdle fuel _ <;> rfl

/-- C9 (as the code has it): the data byte `DisplayFrame` sends with the activate-update
command 0x22 is 0xC7.  It has the bits 0x80 (clock), 0x40 (charge pump), 0x04 (pattern
display), 0x02 and 0x01 set, and the bits 0x20 (temperature load), 0x10 (LUT load) and 0x08
(initial display) clear.  The byte is sent on every run: `DisplayFrame` is the wait run
from the world `s'`, which is the starting world with the sequence holding that byte added
to its trace and one line printed, and on a busy line that reads busy `n` times and then
idle it returns, given fuel for more than `n` reads, with exactly that sequence and the
reads of the wait added to the trace. -/
theorem activate_update_byte (s : World) :
    ∃ (s' : World) (d : Byte),
      s'.epd = s.epd ∧ s'.polls = s.polls ∧ s'.busy = s.busy ∧
      s'.reads = s.reads ∧ s'.ifInitResult = s.ifInitResult ∧
      s'.console = s.console ++ [Out.print "Displaying frame"] ∧
      s'.trace = s.trace
        ++ (cmd s.epd.dc_pin 0x3A ++ dat s.epd.dc_pin 26
          ++ cmd s.epd.dc_pin 0x3B ++ dat s.epd.dc_pin 0x08
          ++ cmd s.epd.dc_pin 0x01 ++ dat s.epd.dc_pin 0x27 ++ dat s.epd.dc_pin 0x01
          ++ dat s.epd.dc_pin 0x00
          ++ cmd s.epd.dc_pin 0x0f ++ dat s.epd.dc_pin 0x00 ++ dat s.epd.dc_pin 0x00
          ++ cmd s.epd.dc_pin 0x22 ++ dat s.epd.dc_pin d
          ++ cmd s.epd.dc_pin 0x20) ∧
      (∀ fuel, DisplayFrame fuel s
        = (WaitUntilIdle fuel s').map (Serial_println " done.")) ∧
      (∀ n : Nat, (∀ k, k < n → s.busy (s.polls + k) = Level.HIGH) →
        s.busy (s.polls + n) = Level.LOW →
        ∀ fuel, n < fuel →
          ∃ w, DisplayFrame fuel s = some w ∧
            w.trace = s.trace
              ++ (cmd s.epd.dc_pin 0x3A ++ dat s.epd.dc_pin 26
                ++ cmd s.epd.dc_pin 0x3B ++ dat s.epd.dc_pin 0x08
                ++ cmd s.epd.dc_pin 0x01 ++ dat s.epd.dc_pin 0x27 ++ dat s.epd.dc_pin 0x01
                ++ dat s.epd.dc_pin 0x00
                ++ cmd s.epd.dc_pin 0x0f ++ dat s.epd.dc_pin 0x00 ++ dat s.epd.dc_pin 0x00
                ++ cmd s.epd.dc_pin 0x22 ++ dat s.epd.dc_pin d
                ++ cmd s.epd.dc_pin 0x20)
              ++ waitStream s.epd.busy_pin n) ∧
      d = 0xC7 ∧
      d.val &&& 0x80 = 0x80 ∧ d.val &&& 0x40 = 0x40 ∧ d.val &&& 0x04 = 0x04 ∧
      d.val &&& 0x02 = 0x02 ∧ d.val &&& 0x01 = 0x01 ∧
      d.val &&& 0x20 = 0 ∧ d.val &&& 0x10 = 0 ∧ d.val &&& 0x08 = 0 := by
  obtain ⟨s', he, hp, hb, hr, hi, hc, ht, hf⟩ := DisplayFrame_split_full s
  refine ⟨s', 0xC7, he, hp, hb, hr, hi, hc, ht, hf, ?_, rfl, by decide, by decide, by decide,
    by decide, by decide, by decide, by decide, by decide⟩
  intro n hhigh hlow fuel hfuel
  obtain ⟨w, hw, hwt, _⟩ := (DisplayFrame_waits s n hhigh hlow).1 fuel hfuel
  exact ⟨w, hw, hwt⟩

theorem activate_update_byte_witness :
    ∃ w, DisplayFrame 1 (World.boot sampleHeader 0 (fun _ => Level.LOW)) = some w :=
  match activate_update_byte (World.boot sampleHeader 0 (fun _ => Level.LOW)) with
  | ⟨_, _, _, _, _, _, _, _, _, _, hret, _⟩ =>
    match hret 0 (fun _ hk => absurd hk (Nat.not_lt_zero _)) rfl 1 (by decide) with
    | ⟨w, hw, _⟩ => ⟨w, hw⟩

/-- C16: before it starts waiting (before its first read of the busy line) `DisplayFrame`
appends exactly: command 0x3A with data 26; command 0x3B with data 0x08; command 0x01 with
data 0x27, 0x01, 0x00; command 0x0F with data 0x00, 0x00; command 0x22 with data 0xC7;
command 0x20, which is the very next transfer after that one data byte.  The sequence
depends on no field of the driver but the select pin.  It is emitted on every run:
`DisplayFrame` is the wait run from the world `s'`, which is the starting world with this
sequence added to its trace and one line printed, and on a busy line that reads busy `n`
times and then idle it returns, given fuel for more than `n` reads, with exactly this
sequence followed by the reads and delays of the wait added to the trace.  The update
length 0x27 + 256 * 0x01 is 295, the panel height less one, and the update start is 0. -/
theorem display_frame_sequence (s : World) :
    (∃ s' : World,
      s'.epd = s.epd ∧ s'.polls = s.polls ∧ s'.busy = s.busy ∧
      s'.reads = s.reads ∧ s'.ifInitResult = s.ifInitResult ∧
      s'.console = s.console ++ [Out.print "Displaying frame"] ∧
      s'.trace = s.trace
        ++ (cmd s.epd.dc_pin 0x3A ++ dat s.epd.dc_pin 26
          ++ cmd s.epd.dc_pin 0x3B ++ dat s.epd.dc_pin 0x08
          ++ cmd s.epd.dc_pin 0x01 ++ dat s.epd.dc_pin 0x27 ++ dat s.epd.dc_pin 0x01
          ++ dat s.epd.dc_pin 0x00
          ++ cmd s.epd.dc_pin 0x0F ++ dat s.epd.dc_pin 0x00 ++ dat s.epd.dc_pin 0x00
          ++ cmd s.epd.dc_pin 0x22 ++ dat s.epd.dc_pin 0xC7
          ++ cmd s.epd.dc_pin 0x20) ∧
      ∀ fuel, DisplayFrame fuel s
        = (WaitUntilIdle fuel s').map (Serial_println " done.")) ∧
    (∀ n : Nat, (∀ k, k < n → s.busy (s.polls + k) = Level.HIGH) →
      s.busy (s.polls + n) = Level.LOW →
      ∀ fuel, n < fuel →
        ∃ w, DisplayFrame fuel s = some w ∧
          w.trace = s.trace
            ++ (cmd s.epd.dc_pin 0x3A ++ dat s.epd.dc_pin 26
              ++ cmd s.epd.dc_pin 0x3B ++ dat s.epd.dc_pin 0x08
              ++ cmd s.epd.dc_pin 0x01 ++ dat s.epd.dc_pin 0x27 ++ dat s.epd.dc_pin 0x01
              ++ dat s.epd.dc_pin 0x00
              ++ cmd s.epd.dc_pin 0x0F ++ dat s.epd.dc_pin 0x00 ++ dat s.epd.dc_pin 0x00
              ++ cmd s.epd.dc_pin 0x22 ++ dat s.epd.dc_pin 0xC7
              ++ cmd s.epd.dc_pin 0x20)
            ++ waitStream s.epd.busy_pin n ∧
          w.polls = s.polls + n + 1) ∧
    (∀ n : Nat, (∀ k, k < n → s.busy (s.polls + k) = Level.HIGH) →
      s.busy (s.polls + n) = Level.LOW →
      ∀ fuel, fuel ≤ n → DisplayFrame fuel s = none) ∧
    transfers (cmd s.epd.dc_pin 0x3A ++ dat s.epd.dc_pin 26
          ++ cmd s.epd.dc_pin 0x3B ++ dat s.epd.dc_pin 0x08
          ++ cmd s.epd.dc_pin 0x01 ++ dat s.epd.dc_pin 0x27 ++ dat s.epd.dc_pin 0x01
          ++ dat s.epd.dc_pin 0x00
          ++ cmd s.epd.dc_pin 0x0F ++ dat s.epd.dc_pin 0x00 ++ dat s.epd.dc_pin 0x00
          ++ cmd s.epd.dc_pin 0x22 ++ dat s.epd.dc_pin 0xC7
          ++ cmd s.epd.dc_pin 0x20)
      = [0x3A, 26, 0x3B, 0x08, 0x01, 0x27, 0x01, 0x00, 0x0F, 0x00, 0x00, 0x22, 0xC7, 0x20] ∧
    ((0x27 : Byte).val : Int) + 256 * ((0x01 : Byte).val : Int) = EPD_HEIGHT - 1 ∧
    ((0x00 : Byte).val : Int) + 256 * ((0x00 : Byte).val : Int) = 0 := by
  obtain ⟨s', he, hp, hb, hr, hi, hc, ht, hf⟩ := DisplayFrame_split_full s
  refine ⟨⟨s', he, hp, hb, hr, hi, hc, ht, hf⟩, ?_, ?_, rfl, by decide, by decide⟩
  · intro n hhigh hlow fuel hfuel
    obtain ⟨w, hw, hwt, hwp, _⟩ := (DisplayFrame_waits s n hhigh hlow).1 fuel hfuel
    exact ⟨w, hw, hwt, hwp⟩
  · intro n hhigh hlow fuel hfuel
    exact (DisplayFrame_waits s n hhigh hlow).2 fuel hfuel

theorem display_frame_sequence_witness :
    ∃ w, DisplayFrame 3
        (World.boot sampleHeader 0 (fun k => if k < 2 then Level.HIGH else Level.LOW))
          = some w ∧ w.polls = 0 + 2 + 1 :=
  match (display_frame_sequence
      (World.boot sampleHeader 0 (fun k => if k < 2 then Level.HIGH else Level.LOW))).2.1 2
      (by intro k hk; simp [World.boot, hk]) (by simp [World.boot]) 3 (by decide) with
  | ⟨w, hw, _, hp⟩ => ⟨w, hw, hp⟩

/-! ### The streamed bytes and the capacity of the window -/

/-- C19 (as the code has it): for an accepted windowed write with `y + image_height` not
overflowing, whose aligned origin is inside the panel and whose aligned extent is not
empty, on a panel whose width is a multiple of 8, what follows `WRITE_RAM` in the trace is
exactly `y_end - y + 1` rows of `x_end / 8 - x_aligned / 8 + 1` data bytes, each sent with
the select line HIGH, and nothing else; so the number of data bytes streamed is the
capacity of the RAM window just programmed,
`(x_end / 8 - x_aligned / 8 + 1) * (y_end - y + 1)`, a positive number of byte columns
times a positive number of rows. -/
theorem streamed_bytes_fill_window (hd : Header) (buf : Int → Byte)
    (x y image_width image_height : Int) (s : World)
    (hx : 0 ≤ x) (hx' : x < 2147483648) (hy : 0 ≤ y)
    (hw : 0 ≤ image_width) (hw' : image_width < 2147483648) (hh : 1 ≤ image_height)
    (hsum : y + image_height < 2147483648)
    (hW : 0 < s.epd.width) (hW' : s.epd.width < 2147483648) (hW8 : s.epd.width % 8 = 0)
    (hH : 0 < s.epd.height) (hH' : s.epd.height ≤ 67108864)
    (hin : land32 x 0xF8 < s.epd.width) (hyin : y < s.epd.height)
    (hne : 8 ≤ land32 image_width 0xF8) :
    (SetFrameMemoryAt hd (some buf) x y image_width image_height s).trace
      = s.trace
        ++ areaStream hd s.epd.dc_pin (land32 x 0xF8) y
            (windowXEnd s.epd (land32 x 0xF8) (land32 image_width 0xF8))
            (windowYEnd s.epd y image_height)
        ++ pointerStream hd s.epd.dc_pin (land32 x 0xF8) y
        ++ cmd s.epd.dc_pin hd.WRITE_RAM
        ++ (List.range (windowYEnd s.epd y image_height - y + 1).toNat).flatMap
            (fun (j : Nat) =>
              (List.range (windowXEnd s.epd (land32 x 0xF8) (land32 image_width 0xF8) / 8
                  - land32 x 0xF8 / 8 + 1).toNat).flatMap
                (fun (i : Nat) => dat s.epd.dc_pin
                  (buf ((i : Int) + (j : Int) * (land32 image_width 0xF8 / 8))))) ∧
    ((transfers ((List.range (windowYEnd s.epd y image_height - y + 1).toNat).flatMap
            (fun (j : Nat) =>
              (List.range (windowXEnd s.epd (land32 x 0xF8) (land32 image_width 0xF8) / 8
                  - land32 x 0xF8 / 8 + 1).toNat).flatMap
                (fun (i : Nat) => dat s.epd.dc_pin
                  (buf ((i : Int) + (j : Int) * (land32 image_width 0xF8 / 8))))))).length
        : Int)
      = (windowXEnd s.epd (land32 x 0xF8) (land32 image_width 0xF8) / 8
            - land32 x 0xF8 / 8 + 1)
          * (windowYEnd s.epd y image_height - y + 1) ∧
    0 < windowXEnd s.epd (land32 x 0xF8) (land32 image_width 0xF8) / 8
          - land32 x 0xF8 / 8 + 1 ∧
    0 < windowYEnd s.epd y image_height - y + 1 := by
  have hh0 : 0 ≤ image_height := by omega
  have hH'' : s.epd.height < 2147483648 := by omega
  have hxa := land32_248 x hx hx'
  have hwa := land32_248 image_width hw hw'
  have hxa0 : 0 ≤ land32 x 0xF8 := by rw [hxa]; omega
  have hxa1 : land32 x 0xF8 ≤ 248 := by rw [hxa]; omega
  have hxa8 : land32 x 0xF8 % 8 = 0 := by rw [hxa]; omega
  have hwa0 : 0 ≤ land32 image_width 0xF8 := by rw [hwa]; omega
  have hwa1 : land32 image_width 0xF8 ≤ 248 := by rw [hwa]; omega
  have hwa8 : land32 image_width 0xF8 % 8 = 0 := by rw [hwa]; omega
  clear hxa hwa
  have hxe := windowXEnd_exact s.epd (land32 x 0xF8) (land32 image_width 0xF8)
    hxa0 hxa1 hwa0 hwa1 hW hW'
  have hye := windowYEnd_exact s.epd y image_height hy hh0 hsum hH hH''
  obtain ⟨hcols, hcpos, hrpos⟩ :=
    window_capacity_facts s.epd.width s.epd.height (land32 x 0xF8) (land32 image_width 0xF8)
      y image_height _ _ hxe hye hxa8 hwa8 hW8 hin hne hyin hh
  have htrace := SetFrameMemoryAt_trace_exact hd buf x y image_width image_height s
    hx hx' hy hw hw' hh0 hsum hW hW' hH hH'
  rw [hcols] at htrace
  refine ⟨htrace, ?_, hcpos, hrpos⟩
  rw [rows_transfer_count s.epd.dc_pin
    (fun i j => buf ((i : Int) + (j : Int) * (land32 image_width 0xF8 / 8)))]
  exact toNat_mul_toNat _ _ (le_of_lt hrpos) (le_of_lt hcpos)

theorem streamed_bytes_fill_window_witness :
    0 < windowYEnd (World.boot sampleHeader 0 (fun _ => Level.LOW)).epd 290 10 - 290 + 1 :=
  (streamed_bytes_fill_window sampleHeader (fun _ => 0) 120 290 100 10
    (World.boot sampleHeader 0 (fun _ => Level.LOW))
    (by decide) (by decide) (by decide) (by decide) (by decide) (by decide) (by decide)
    (by decide) (by decide) (by decide) (by decide) (by decide) (by decide) (by decide)
    (by decide)).2.2.2
/-- C19 fails as stated when `y + image_height` overflows.  On a freshly constructed
driver, `x = 0`, `y = 295`, `image_width = 8`, `image_height = 2147483647` is an accepted
call whose aligned origin is inside the panel and whose aligned extent is not empty.  The
sum `y + image_height` wraps, `y_end` becomes -2147483355, and the window sent to the
controller runs from row 295 (bytes 39, 1) to row 293 (bytes 37, 1).  The capacity
`(x_end / 8 - x_aligned / 8 + 1) * (y_end - y + 1)` is -2147483649, which no number of
bytes equals, while the data loops run 2147483647 rows of one byte and the trace holds
2147483647 data bytes after `WRITE_RAM`. -/
theorem window_fill_fails_on_overflow :
    land32 0 0xF8 < (Epd.new sampleHeader).width ∧
    (295 : Int) < (Epd.new sampleHeader).height ∧
    8 ≤ land32 8 0xF8 ∧
    windowXEnd (Epd.new sampleHeader) (land32 0 0xF8) (land32 8 0xF8) = 7 ∧
    windowYEnd (Epd.new sampleHeader) 295 2147483647 = -2147483355 ∧
    transfers (SetMemoryArea sampleHeader (land32 0 0xF8) 295
        (windowXEnd (Epd.new sampleHeader) (land32 0 0xF8) (land32 8 0xF8))
        (windowYEnd (Epd.new sampleHeader) 295 2147483647)
        (World.boot sampleHeader 0 (fun _ => Level.LOW))).trace
      = [0x44, 0, 0, 0x45, 39, 1, 37, 1] ∧
    (windowXEnd (Epd.new sampleHeader) (land32 0 0xF8) (land32 8 0xF8) / 8
        - land32 0 0xF8 / 8 + 1)
      * (windowYEnd (Epd.new sampleHeader) 295 2147483647 - 295 + 1) = -2147483649 ∧
    (iadd (isub (windowYEnd (Epd.new sampleHeader) 295 2147483647) 295) 1).toNat
      = 2147483647 ∧
    (Int.tdiv (iadd (isub (windowXEnd (Epd.new sampleHeader) (land32 0 0xF8) (land32 8 0xF8))
        (land32 0 0xF8)) 1) 8).toNat = 1 ∧
    (∃ data : List Event,
      (SetFrameMemoryAt sampleHeader (some (fun _ => 0xFF)) 0 295 8 2147483647
          (World.boot sampleHeader 0 (fun _ => Level.LOW))).trace
        = (SendCommand sampleHeader.WRITE_RAM (SetMemoryPointer sampleHeader (land32 0 0xF8) 295
            (SetMemoryArea sampleHeader (land32 0 0xF8) 295
              (windowXEnd (Epd.new sampleHeader) (land32 0 0xF8) (land32 8 0xF8))
              (windowYEnd (Epd.new sampleHeader) 295 2147483647)
              (World.boot sampleHeader 0 (fun _ => Level.LOW))))).trace ++ data ∧
      (transfers data).length = 2147483647) ∧
    ¬ (∃ data : List Event,
        ((transfers data).length : Int)
          = (windowXEnd (Epd.new sampleHeader) (land32 0 0xF8) (land32 8 0xF8) / 8
              - land32 0 0xF8 / 8 + 1)
            * (windowYEnd (Epd.new sampleHeader) 295 2147483647 - 295 + 1)) := by
  have hcap : (windowXEnd (Epd.new sampleHeader) (land32 0 0xF8) (land32 8 0xF8) / 8
        - land32 0 0xF8 / 8 + 1)
      * (windowYEnd (Epd.new sampleHeader) 295 2147483647 - 295 + 1) = -2147483649 := by
    decide
  have hrows : (iadd (isub (windowYEnd (Epd.new sampleHeader) 295 2147483647) 295) 1).toNat
      = 2147483647 := by decide
  have hcols : (Int.tdiv (iadd (isub
      (windowXEnd (Epd.new sampleHeader) (land32 0 0xF8) (land32 8 0xF8))
      (land32 0 0xF8)) 1) 8).toNat = 1 := by decide
  refine ⟨by decide, by decide, by decide, by decide, by decide, by decide, hcap, hrows,
    hcols, ?_, ?_⟩
  · have htr := (windowRows_spec (fun _ => (0xFF : Byte)) (land32 0 0xF8) 295 (land32 8 0xF8)
      (windowXEnd (Epd.new sampleHeader) (land32 0 0xF8) (land32 8 0xF8))
      (windowYEnd (Epd.new sampleHeader) 295 2147483647)
      (SendCommand sampleHeader.WRITE_RAM (SetMemoryPointer sampleHeader (land32 0 0xF8) 295
        (SetMemoryArea sampleHeader (land32 0 0xF8) 295
          (windowXEnd (Epd.new sampleHeader) (land32 0 0xF8) (land32 8 0xF8))
          (windowYEnd (Epd.new sampleHeader) 295 2147483647)
          (World.boot sampleHeader 0 (fun _ => Level.LOW)))))).2
    rw [hrows, hcols] at htr
    have hacc := SetFrameMemoryAt_accepted sampleHeader (fun _ => 0xFF) 0 295 8 2147483647
      (World.boot sampleHeader 0 (fun _ => Level.LOW)) (by decide) (by decide) (by decide)
      (by decide)
    refine ⟨_, hacc ▸ htr, ?_⟩
    exact rows_transfer_count _ (fun (_ _ : Nat) => (0xFF : Byte)) 2147483647 1
  · rintro ⟨data, hdata⟩
    rw [hcap] at hdata
    have hnonneg : (0 : Int) ≤ ((transfers data).length : Int) := Int.ofNat_nonneg _
    omega

end Epd2in9
